import Mathlib

set_option maxRecDepth 8000

/-!
Verification of the price-monitoring core of the Perpee repository.

Each Python function relevant to a claim is embedded shallowly as an
executable Lean definition operating on `String`, `List`, `ℚ` and `ℕ`.
Python floats are modelled as exact rationals (all concrete inputs used in
counterexamples and witnesses are chosen away from binary-representation
boundary cases so that the rational model and IEEE-754 agree), Python
`None`-able values as `Option`, and Python exceptions as `Option`/`Except`
results.
-/

namespace Perpee

/-! ## Python string primitives

Helpers mirroring the Python `str` operations used by the source. Only the
ASCII whitespace class is modelled (the inputs of interest are ASCII). -/

/-- Characters treated as whitespace by Python `str.split()` / `str.strip()`
(ASCII part). -/
def isPyWs (c : Char) : Bool :=
  c = ' ' || c = '\t' || c = '\n' || c = '\x0d' || Char.ofNat 11 = c || Char.ofNat 12 = c

/-- `str.strip()` on a character list. -/
def pyStripChars (cs : List Char) : List Char :=
  ((cs.dropWhile isPyWs).reverse.dropWhile isPyWs).reverse

/-- Accumulator pass behind `pySplitWs`: the current (reversed) word is
carried along and emitted at each whitespace boundary. -/
def pySplitWsAux : List Char → List Char → List (List Char)
  | [], acc => if acc.isEmpty then [] else [acc.reverse]
  | c :: rest, acc =>
      if isPyWs c then
        if acc.isEmpty then pySplitWsAux rest [] else acc.reverse :: pySplitWsAux rest []
      else pySplitWsAux rest (c :: acc)

/-- `str.split()` with no argument: split on runs of whitespace, no empty
components. -/
def pySplitWs (cs : List Char) : List (List Char) :=
  pySplitWsAux cs []

/-- `" ".join(words)`. -/
def joinSpace (ws : List (List Char)) : List Char :=
  match ws with
  | [] => []
  | [w] => w
  | w :: rest => w ++ ' ' :: joinSpace rest

/-- `" ".join(s.split())`: whitespace normalisation as used throughout
`core/security.py`. -/
def normalizeWs (cs : List Char) : List Char :=
  joinSpace (pySplitWs cs)

/-- Substring test: `pat in hay` for Python strings. -/
def listHasSub (hay pat : List Char) : Bool :=
  match hay with
  | [] => pat.isEmpty
  | _ :: rest => pat.isPrefixOf hay || listHasSub rest pat

/-- `pat in hay` on `String`s. -/
def strHasSub (hay pat : String) : Bool :=
  listHasSub hay.data pat.data

/-! ## Python float parsing and rounding -/

/-- Value of a digit run. -/
def digitsToNat (ds : List Char) : ℕ :=
  ds.foldl (fun a c => a * 10 + (c.toNat - 48)) 0

/-- Core of Python `float(s)` on an already-stripped character list:
optional sign, then `digits`, `digits.digits`, `digits.` or `.digits`.
The exponent / `inf` / `nan` forms cannot reach the call sites modelled
here (the caller has already removed all letters), and the rarely used
underscore digit separators are not modelled. -/
def pyFloatCore (cs : List Char) : Option ℚ :=
  let signed : Bool × List Char :=
    match cs with
    | '+' :: r => (false, r)
    | '-' :: r => (true, r)
    | r => (false, r)
  let neg := signed.1
  let intPart := signed.2.takeWhile Char.isDigit
  let rest := signed.2.dropWhile Char.isDigit
  let build : List Char → List Char → Option ℚ := fun ip fp =>
    if ip.isEmpty && fp.isEmpty then none
    else
      let mag : ℚ := (digitsToNat (ip ++ fp) : ℚ) / ((10 : ℚ) ^ fp.length)
      some (if neg then -mag else mag)
  match rest with
  | [] => build intPart []
  | '.' :: r =>
      if (r.dropWhile Char.isDigit).isEmpty then
        build intPart (r.takeWhile Char.isDigit)
      else none
  | _ => none

/-- Python `float(s)` (strips surrounding whitespace first). -/
def pyFloatChars (cs : List Char) : Option ℚ :=
  pyFloatCore (pyStripChars cs)

/-- Python `round(q, 2)`: round to a multiple of 1/100, ties to even
(Python's banker's rounding, stated on the exact rational value). -/
def roundCents (q : ℚ) : ℚ :=
  let x := q * 100
  let n : ℤ := ⌊x⌋
  let r : ℚ := x - n
  let m : ℤ :=
    if 1 / 2 < r then n + 1
    else if r < 1 / 2 then n
    else if n % 2 = 0 then n else n + 1
  (m : ℚ) / 100

/-! ## `core/security.py`: price normalisation -/

/-- The character class removed by `re.sub(r"[A-Za-z$€£¥]", "", price_str)`. -/
def isCurrencyOrLetter (c : Char) : Bool :=
  ('A' ≤ c && c ≤ 'Z') || ('a' ≤ c && c ≤ 'z') ||
    c = '$' || c = '€' || c = '£' || c = '¥'

/-- The cleaning pipeline of `normalize_price` before the `float` call:
strip currency glyphs and letters, remove commas, strip whitespace, and for
a single-dash string keep the first component (stripped). -/
def cleanPrice (price_str : String) : List Char :=
  let cleaned := price_str.data.filter (fun c => ¬ isCurrencyOrLetter c)
  let cleaned := cleaned.filter (fun c => ¬ c = ',')
  let cleaned := pyStripChars cleaned
  if cleaned.count '-' = 1 then pyStripChars (cleaned.takeWhile (fun c => ¬ c = '-'))
  else cleaned

/-- The numeric value `normalize_price` feeds into its range check:
`float(cleaned)` on the cleaned string, `none` on empty input or parse
failure. -/
def parsedPrice (price_str : String) : Option ℚ :=
  if price_str = "" then none else pyFloatChars (cleanPrice price_str)

/-- `normalize_price` from `src/backend/src/core/security.py` (lines
301-335): the range check `price < 0.01 or price > 1_000_000` is applied to
the parsed value, and the surviving value is returned rounded to cents. -/
def normalize_price (price_str : String) : Option ℚ :=
  match parsedPrice price_str with
  | none => none
  | some price =>
      if price < 1 / 100 ∨ 1000000 < price then none else some (roundCents price)

/-- Modelled from the claim's wording for C4 (not from the source): round
the parsed value to cents first, then return the rounded value exactly when
the rounded value lies in [0.01, 1,000,000]. Used only to exhibit the
divergence from `normalize_price`. -/
def normalizePriceClaimOrder (price_str : String) : Option ℚ :=
  match parsedPrice price_str with
  | none => none
  | some price =>
      let r := roundCents price
      if 1 / 100 ≤ r ∧ r ≤ 1000000 then some r else none

/-! ## `core/security.py`: content sanitisation -/

/-- Tag-removal automaton behind the model of `bleach.clean(html,
tags=[], strip=True)`: characters between `<` and `>` are dropped, all
other text is kept. (Bleach's entity re-encoding of already-escaped text
is not modelled; the inputs of interest contain no entities.) -/
def stripTagsAux : Bool → List Char → List Char
  | _, [] => []
  | true, c :: rest => stripTagsAux (decide (¬ c = '>')) rest
  | false, c :: rest =>
      if c = '<' then stripTagsAux true rest else c :: stripTagsAux false rest

/-- `bleach.clean(html, tags=ALLOWED_HTML_TAGS, strip=True)` with
`ALLOWED_HTML_TAGS = []`: remove all HTML tags, keep the text. -/
def bleachStripTags (cs : List Char) : List Char :=
  stripTagsAux false cs

/-- `sanitize_html` from `core/security.py` (lines 221-244): strip all
tags, normalise whitespace, and truncate to `MAX_TEXT_LENGTH = 10_000`
characters plus an appended `"..."`. -/
def sanitize_html (html : String) : String :=
  if html = "" then ""
  else
    let cleaned := bleachStripTags html.data
    let cleaned := normalizeWs cleaned
    if 10000 < cleaned.length then String.mk (cleaned.take 10000 ++ ['.', '.', '.'])
    else String.mk cleaned

/-- The character class of the run-removal regex in
`sanitize_product_name`. -/
def isExcessPunct (c : Char) : Bool :=
  c = '!' || c = '@' || c = '#' || c = '$' || c = '%' || c = '^' || c = '&' ||
  c = '*' || c = '(' || c = ')' || c = '_' || c = '+' || c = '=' || c = '[' ||
  c = ']' || Char.ofNat 123 = c || Char.ofNat 125 = c || c = '|' || c = '\\' ||
  c = ':' || c = '\"' || c = ';' || c = '<' || c = '>' || c = '?' || c = ',' ||
  c = '.' || c = '/'

/-- Accumulator pass behind `removePunctRuns`: the pending (reversed) run
of punctuation characters is emitted only when shorter than three. -/
def removePunctRunsAux : List Char → List Char → List Char
  | [], run => if 3 ≤ run.length then [] else run.reverse
  | c :: rest, run =>
      if isExcessPunct c then removePunctRunsAux rest (c :: run)
      else
        (if 3 ≤ run.length then [] else run.reverse) ++
          c :: removePunctRunsAux rest []

/-- `re.sub` with the pattern `[...]{3,}` over the class above: delete
every maximal run of three or more characters from the class. -/
def removePunctRuns (cs : List Char) : List Char :=
  removePunctRunsAux cs []

/-- The final truncation step of `sanitize_product_name`: cut to 500
characters and append `"..."` when over the limit. -/
def truncName (cs : List Char) : List Char :=
  if 500 < cs.length then cs.take 500 ++ ['.', '.', '.'] else cs

/-- `sanitize_product_name` from `core/security.py` (lines 273-293):
`sanitize_html`, then removal of excessive punctuation runs, truncation at
500 characters with an appended `"..."`, and a final `strip()`. -/
def sanitize_product_name (name : String) : String :=
  String.mk (pyStripChars (truncName (removePunctRuns (sanitize_html name).data)))

/-! ## `core/security.py`: SSRF protection -/

/-- An address value as produced by Python `ipaddress.ip_address`. -/
inductive PyIP where
  | v4 (n : ℕ)
  | v6 (n : ℕ)
deriving DecidableEq

/-- Python `str.split(sep)` for a one-character separator. -/
def splitOnChar (sep : Char) : List Char → List Char → List (List Char)
  | [], acc => [acc.reverse]
  | c :: rest, acc =>
      if c = sep then acc.reverse :: splitOnChar sep rest []
      else splitOnChar sep rest (c :: acc)

/-- Python `str.split("::")`: split at each leftmost non-overlapping
occurrence of a double colon. -/
def splitOnColonColon : List Char → List Char → List (List Char)
  | [], acc => [acc.reverse]
  | ':' :: ':' :: rest, acc => acc.reverse :: splitOnColonColon rest []
  | c :: rest, acc => splitOnColonColon rest (c :: acc)

/-- One octet of a dotted-quad IPv4 address: one to three digits, no
leading zero, value at most 255. -/
def parseOctet (cs : List Char) : Option ℕ :=
  if cs.isEmpty || 3 < cs.length || !cs.all Char.isDigit then none
  else if 1 < cs.length && cs.head? = some '0' then none
  else
    let v := digitsToNat cs
    if v ≤ 255 then some v else none

/-- Python `ipaddress.IPv4Address` parsing of a dotted quad. -/
def parseIPv4 (s : List Char) : Option ℕ :=
  match splitOnChar '.' s [] with
  | [a, b, c, d] =>
      match parseOctet a, parseOctet b, parseOctet c, parseOctet d with
      | some x, some y, some z, some w =>
          some (((x * 256 + y) * 256 + z) * 256 + w)
      | _, _, _, _ => none
  | _ => none

/-- Hexadecimal digit value. -/
def hexVal (c : Char) : Option ℕ :=
  if c.isDigit then some (c.toNat - 48)
  else if 'a' ≤ c && c ≤ 'f' then some (c.toNat - 87)
  else if 'A' ≤ c && c ≤ 'F' then some (c.toNat - 70)
  else none

/-- One 16-bit group of an IPv6 address: one to four hex digits. -/
def parseHexGroup (cs : List Char) : Option ℕ :=
  if cs.isEmpty || 4 < cs.length then none
  else
    cs.foldl (fun acc c => match acc, hexVal c with
      | some a, some v => some (a * 16 + v)
      | _, _ => none) (some 0)

/-- Colon-separated pieces of one side of an IPv6 address (empty side has
no pieces). -/
def splitGroups (t : List Char) : List (List Char) :=
  if t.isEmpty then [] else splitOnChar ':' t []

/-- Parse IPv6 pieces that must all be plain hex groups. -/
def parseGroupsNoV4 (parts : List (List Char)) : Option (List ℕ) :=
  match parts with
  | [] => some []
  | p :: rest =>
      match parseHexGroup p, parseGroupsNoV4 rest with
      | some g, some gs => some (g :: gs)
      | _, _ => none

/-- Parse IPv6 pieces where the last piece may be an embedded dotted-quad
IPv4 address (contributing two groups). -/
def parseGroupsTail (parts : List (List Char)) : Option (List ℕ) :=
  match parts with
  | [] => some []
  | [last] =>
      if last.contains '.' then
        (parseIPv4 last).map (fun n => [n / 65536, n % 65536])
      else (parseHexGroup last).map (fun g => [g])
  | p :: rest =>
      match parseHexGroup p, parseGroupsTail rest with
      | some g, some gs => some (g :: gs)
      | _, _ => none

/-- 128-bit value of a list of 16-bit groups. -/
def combineGroups (gs : List ℕ) : ℕ :=
  gs.foldl (fun a g => a * 65536 + g) 0

/-- Python `ipaddress.IPv6Address` parsing: at most one `::`, eight groups
in total after zero-filling, optional embedded IPv4 tail. Zone suffixes
(`%eth0`) are not modelled and parse as failures. -/
def parseIPv6 (s : List Char) : Option ℕ :=
  if s.contains '%' then none
  else
    match splitOnColonColon s [] with
    | [whole] =>
        match parseGroupsTail (splitGroups whole) with
        | some gs => if gs.length = 8 then some (combineGroups gs) else none
        | none => none
    | [l, r] =>
        match parseGroupsNoV4 (splitGroups l), parseGroupsTail (splitGroups r) with
        | some gl, some gr =>
            if gl.length + gr.length ≤ 7 then
              some (combineGroups
                (gl ++ List.replicate (8 - gl.length - gr.length) 0 ++ gr))
            else none
        | _, _ => none
    | _ => none

/-- `ipaddress.ip_address(s)`: IPv4 first, then IPv6; `none` models the
`ValueError` raised for an unparseable string. -/
def parseIP (s : String) : Option PyIP :=
  match parseIPv4 s.data with
  | some n => some (.v4 n)
  | none =>
      match parseIPv6 s.data with
      | some n => some (.v6 n)
      | none => none

/-- `PRIVATE_IP_RANGES` from `core/constants.py`, parsed into
(network address, prefix length) pairs. -/
def PRIVATE_IP_RANGES : List (PyIP × ℕ) :=
  [(.v4 0x0a000000, 8), (.v4 0xac100000, 12), (.v4 0xc0a80000, 16),
   (.v4 0x7f000000, 8), (.v4 0xa9fe0000, 16),
   (.v6 1, 128), (.v6 (0xfc00 * 2 ^ 112), 7), (.v6 (0xfe80 * 2 ^ 112), 10)]

/-- `ip_obj in network`: prefix comparison; `False` on a version
mismatch (CPython's `_BaseNetwork.__contains__`). -/
def ipInNet : PyIP → PyIP × ℕ → Bool
  | .v4 n, (.v4 net, p) => n / 2 ^ (32 - p) = net / 2 ^ (32 - p)
  | .v6 n, (.v6 net, p) => n / 2 ^ (128 - p) = net / 2 ^ (128 - p)
  | _, _ => false

/-- `is_private_ip` from `core/security.py` (lines 150-172): a parse
failure (`ValueError`) is treated as private ("be safe and reject"). -/
def is_private_ip (ip : String) : Bool :=
  match parseIP ip with
  | none => true
  | some obj => PRIVATE_IP_RANGES.any (fun rg => ipInNet obj rg)

/-- The resolved-address check of `resolve_and_validate_url`
(`core/security.py` lines 204-211): raise `PrivateIPError` on the first
resolved address whose `is_private_ip` is true. The DNS resolution itself
is external; the list of resolved address strings is a parameter. -/
def resolveCheck (resolved : List String) : Except String Unit :=
  match resolved.find? (fun ip => is_private_ip ip) with
  | some ip => .error ("URL resolves to private IP: " ++ ip)
  | none => .ok ()

/-! ## `notifications/service.py`: alert evaluation -/

/-- `AlertType` from `database/models.py`. -/
inductive AlertType where
  | TARGET_PRICE
  | PERCENT_DROP
  | ANY_CHANGE
  | BACK_IN_STOCK
deriving DecidableEq

/-- The `Alert` row fields read by `evaluate_alert`. -/
structure Alert where
  id : ℕ
  alert_type : AlertType
  target_value : Option ℚ := none
  min_change_threshold : ℚ := 1
  is_active : Bool := true

/-- `AlertEvaluationResult`. The `reason` strings carry the static text of
the source's messages; the interpolated numbers are elided (they play no
role in any claim). -/
structure AlertEvaluationResult where
  triggered : Bool
  alert_type : AlertType
  alert_id : ℕ
  reason : String

/-- `NotificationService.evaluate_alert` (`notifications/service.py` lines
85-218). Python truthiness is preserved: `if target and current_price <=
target` treats a missing or zero target as falsy, `if previous_price and
previous_price > 0` likewise, and the ANY_CHANGE branch first requires
`current_price != previous_price`. -/
def evaluate_alert (alert : Alert) (current_price : ℚ) (previous_price : Option ℚ)
    (in_stock : Bool) (was_in_stock : Option Bool) : AlertEvaluationResult :=
  if !alert.is_active then
    { triggered := false, alert_type := alert.alert_type, alert_id := alert.id,
      reason := "Alert is not active" }
  else if alert.alert_type = .BACK_IN_STOCK then
    if in_stock && was_in_stock = some false then
      { triggered := true, alert_type := alert.alert_type, alert_id := alert.id,
        reason := "Product is back in stock" }
    else
      { triggered := false, alert_type := alert.alert_type, alert_id := alert.id,
        reason := "Stock status unchanged or still out of stock" }
  else if !in_stock then
    { triggered := false, alert_type := alert.alert_type, alert_id := alert.id,
      reason := "Product is out of stock" }
  else if alert.alert_type = .TARGET_PRICE then
    match alert.target_value with
    | some target =>
        if ¬ target = 0 ∧ current_price ≤ target then
          { triggered := true, alert_type := alert.alert_type, alert_id := alert.id,
            reason := "Price is at or below target" }
        else
          { triggered := false, alert_type := alert.alert_type, alert_id := alert.id,
            reason := "Price is above target" }
    | none =>
        { triggered := false, alert_type := alert.alert_type, alert_id := alert.id,
          reason := "No target set" }
  else if alert.alert_type = .PERCENT_DROP then
    match previous_price with
    | some prev =>
        if ¬ prev = 0 ∧ 0 < prev then
          let drop_percent := (prev - current_price) / prev * 100
          let target_percent := match alert.target_value with | some t => t | none => 0
          let price_diff := prev - current_price
          if price_diff < alert.min_change_threshold then
            { triggered := false, alert_type := alert.alert_type, alert_id := alert.id,
              reason := "Price drop below threshold" }
          else if target_percent ≤ drop_percent then
            { triggered := true, alert_type := alert.alert_type, alert_id := alert.id,
              reason := "Price dropped by at least the target percentage" }
          else
            { triggered := false, alert_type := alert.alert_type, alert_id := alert.id,
              reason := "No price drop detected" }
        else
          { triggered := false, alert_type := alert.alert_type, alert_id := alert.id,
            reason := "No price drop detected" }
    | none =>
        { triggered := false, alert_type := alert.alert_type, alert_id := alert.id,
          reason := "No price drop detected" }
  else if alert.alert_type = .ANY_CHANGE then
    match previous_price with
    | some prev =>
        if ¬ current_price = prev then
          if |current_price - prev| < alert.min_change_threshold then
            { triggered := false, alert_type := alert.alert_type, alert_id := alert.id,
              reason := "Price change below threshold" }
          else
            { triggered := true, alert_type := alert.alert_type, alert_id := alert.id,
              reason := "Price changed" }
        else
          { triggered := false, alert_type := alert.alert_type, alert_id := alert.id,
            reason := "No price change detected" }
    | none =>
        { triggered := false, alert_type := alert.alert_type, alert_id := alert.id,
          reason := "No price change detected" }
  else
    { triggered := false, alert_type := alert.alert_type, alert_id := alert.id,
      reason := "Unknown alert type" }

/-! ## `notifications/service.py`: duplicate suppression and dispatch -/

/-- `NotificationStatus` from `database/models.py`. -/
inductive NotificationStatus where
  | PENDING
  | SENT
  | FAILED
deriving DecidableEq

/-- A `Notification` row restricted to the fields the notifier reads or
writes; `payload_current_price` models `payload.get("current_price")`
(`none` for a payload lacking the key or storing `null`). Times are in
hours. -/
structure NotifRecord where
  product_id : ℕ
  alert_id : Option ℕ
  status : NotificationStatus
  payload_current_price : Option ℚ
  payload_previous_price : Option ℚ := none
  created_at : ℚ
deriving DecidableEq

/-- The `check_duplicate` query: SENT notifications for `(product_id,
alert_id)` created within the window, most recent one (ties broken towards
the later row, the database order for equal timestamps being
unspecified). -/
def latestSentInWindow (store : List NotifRecord) (cutoff : ℚ)
    (product_id alert_id : ℕ) : Option NotifRecord :=
  (store.filter (fun n =>
      n.product_id = product_id ∧ n.alert_id = some alert_id ∧
        n.status = .SENT ∧ cutoff ≤ n.created_at)).foldl
    (fun acc n =>
      match acc with
      | none => some n
      | some m => if m.created_at ≤ n.created_at then some n else some m)
    none

/-- `NotificationService.check_duplicate` (`notifications/service.py` lines
220-272): look at the most recent SENT notification for the pair within the
24-hour cooldown; report a duplicate iff its stored payload price is
non-null and within one cent of the proposed price. -/
def check_duplicate (store : List NotifRecord) (now : ℚ)
    (product_id alert_id : ℕ) (current_price : ℚ) : Bool :=
  let cutoff := now - 24
  match latestSentInWindow store cutoff product_id alert_id with
  | none => false
  | some last =>
      match last.payload_current_price with
      | none => false
      | some lp => if |lp - current_price| < 1 / 100 then true else false

/-- The `Product` row fields `send_price_alert` needs (the claims assume a
non-null current price; template-rendering inputs are elided). -/
structure ProductM where
  id : ℕ
  name : String
  current_price : ℚ

/-- `NotificationResult`. -/
structure NotificationResult where
  success : Bool
  notification_id : Option ℕ := none
  error_message : Option String := none
deriving DecidableEq

/-- `NotificationService.send_price_alert` (`notifications/service.py`
lines 274-381), returning the result together with the updated
notification table. The email channel is external: `email_error = none`
models a successful `send`, `some msg` a failed one (the exception path
stores the exception text the same way). Template rendering has no
observable effect on the notification table and is elided. The fresh row's
id is its position in the table. -/
def send_price_alert (store : List NotifRecord) (now : ℚ) (product : ProductM)
    (alert : Alert) (previous_price : Option ℚ) (user_email_set : Bool)
    (email_error : Option String) : NotificationResult × List NotifRecord :=
  if !user_email_set then
    ({ success := false, error_message := some ("No user email configured") }, store)
  else if check_duplicate store now product.id alert.id product.current_price then
    ({ success := false, error_message := some ("Duplicate notification prevented") },
      store)
  else
    let base : NotifRecord :=
      { product_id := product.id, alert_id := some alert.id, status := .PENDING,
        payload_current_price := some product.current_price,
        payload_previous_price := previous_price, created_at := now }
    let final : NotifRecord :=
      match email_error with
      | none => { base with status := .SENT }
      | some _ => { base with status := .FAILED }
    ({ success := email_error.isNone, notification_id := some store.length,
        error_message := email_error }, store ++ [final])

/-! ## `scraper/retry.py`: retry engine -/

/-- `ErrorCategory` from `scraper/retry.py`. -/
inductive ErrorCategory where
  | NETWORK
  | TIMEOUT
  | SERVER_ERROR
  | RATE_LIMITED
  | FORBIDDEN
  | NOT_FOUND
  | BLOCKED
  | PARSE_ERROR
deriving DecidableEq

/-- Exception values reaching `categorize_error`: the scraper exception
classes of `core/exceptions.py` that the `isinstance` chain distinguishes
(`scraperErr` standing for every other `ScraperError` subclass, such as
`ParseError`), plus a generic exception. Each carries its message
(`str(error)`). -/
inductive PyErr where
  | timeoutErr (msg : String)
  | networkErr (msg : String)
  | notFoundErr (msg : String)
  | blockedErr (msg : String)
  | scraperErr (msg : String)
  | genericErr (msg : String)
deriving DecidableEq

/-- `categorize_error` (`scraper/retry.py` lines 106-147). -/
def categorize_error (e : PyErr) : ErrorCategory :=
  match e with
  | .timeoutErr _ => .TIMEOUT
  | .networkErr _ => .NETWORK
  | .notFoundErr _ => .NOT_FOUND
  | .blockedErr m =>
      if strHasSub m ("429") || strHasSub m.toLower ("rate") then .RATE_LIMITED
      else if strHasSub m ("403") then .FORBIDDEN
      else .BLOCKED
  | .scraperErr _ => .PARSE_ERROR
  | .genericErr m =>
      let ms := m.toLower
      if strHasSub ms ("timeout") then .TIMEOUT
      else if strHasSub ms ("connection") || strHasSub ms ("network") then .NETWORK
      else if strHasSub ms ("404") then .NOT_FOUND
      else if strHasSub ms ("403") then .FORBIDDEN
      else if strHasSub ms ("429") then .RATE_LIMITED
      else if strHasSub ms ("50") then .SERVER_ERROR
      else .NETWORK

/-- `RetryConfig` (delays and jitter are irrelevant to the attempt-count
claims; the sleeps are modelled as no-ops). -/
structure RetryConfig where
  max_retries : ℕ := 3

/-- `RetryConfig.should_retry` (`scraper/retry.py` lines 64-91); `attempt`
is 0-indexed. -/
def RetryConfig.should_retry (cfg : RetryConfig) (category : ErrorCategory)
    (attempt : ℕ) : Bool :=
  if category = .NOT_FOUND then false
  else if category = .FORBIDDEN then attempt < 1
  else if category = .BLOCKED then attempt < 2
  else if category = .PARSE_ERROR then attempt < 2
  else attempt < cfg.max_retries

/-- `RetryResult`. -/
structure RetryResult (T : Type) where
  success : Bool
  result : Option T := none
  error : Option PyErr := none
  attempts : ℕ := 0
  category : Option ErrorCategory := none
  message : String := ""

/-- `RetryHandler._build_message` (`scraper/retry.py` lines 235-256); the
`str(error)` appended in the no-category fallback is elided (that branch is
unreachable from `execute`, which always records a category on failure). -/
def buildMessage (category : Option ErrorCategory) (attempts : ℕ) : String :=
  match category with
  | some .NETWORK =>
      "Network error after " ++ toString attempts ++
        " attempts. Please check your connection."
  | some .TIMEOUT =>
      "Request timed out after " ++ toString attempts ++
        " attempts. The website may be slow."
  | some .SERVER_ERROR =>
      "Server error after " ++ toString attempts ++
        " attempts. The website may be having issues."
  | some .RATE_LIMITED => "Rate limited by the website. Please wait before trying again."
  | some .FORBIDDEN => "Access denied by the website. This product may require login."
  | some .NOT_FOUND => "Product page not found (404). The URL may be incorrect."
  | some .BLOCKED => "Blocked by the website. CAPTCHA or login may be required."
  | some .PARSE_ERROR =>
      "Failed to extract product data. The page format may have changed."
  | none => "Error after " ++ toString attempts ++ " attempts."

/-- The `while True` loop of `RetryHandler.execute` (`scraper/retry.py`
lines 182-233). The n-th call of `func` models the n-th attempt (0-indexed);
`fuel` is a structural-recursion bound chosen by `executeRetry` large
enough that the zero-fuel arm is unreachable (the source loop terminates
because `should_retry` fails once `attempt` reaches the per-category cap). -/
def executeAux {T : Type} (cfg : RetryConfig) (func : ℕ → Except PyErr T) :
    ℕ → ℕ → RetryResult T
  | attempt, fuel + 1 =>
      match func attempt with
      | .ok v => { success := true, result := some v, attempts := attempt + 1 }
      | .error e =>
          let cat := categorize_error e
          if cfg.should_retry cat attempt then executeAux cfg func (attempt + 1) fuel
          else
            { success := false, error := some e, attempts := attempt + 1,
              category := some cat, message := buildMessage (some cat) (attempt + 1) }
  | attempt, 0 => { success := false, attempts := attempt }

/-- `RetryHandler.execute`: run the retry loop from attempt 0. -/
def executeRetry {T : Type} (cfg : RetryConfig) (func : ℕ → Except PyErr T) :
    RetryResult T :=
  executeAux cfg func 0 (max cfg.max_retries 2 + 2)

/-- The per-category cap on TOTAL attempts implied by `should_retry` (one
more than the number of permitted retries). -/
def catBound (cfg : RetryConfig) : ErrorCategory → ℕ
  | .NOT_FOUND => 1
  | .FORBIDDEN => 2
  | .BLOCKED => 3
  | .PARSE_ERROR => 3
  | _ => cfg.max_retries + 1

/-! ## `scraper/strategies.py`: extraction strategies -/

/-- `ExtractionStrategy` from `database/models.py`. -/
inductive ExtractionStrategy where
  | JSON_LD
  | CSS_SELECTOR
  | XPATH
  | LLM
deriving DecidableEq

/-- `ProductData` from `scraper/strategies.py`. -/
structure ProductData where
  name : Option String := none
  price : Option ℚ := none
  original_price : Option ℚ := none
  currency : String := "CAD"
  in_stock : Bool := true
  image_url : Option String := none
  brand : Option String := none
  upc : Option String := none
  strategy_used : Option ExtractionStrategy := none

/-!
A parsed JSON value as produced by `json.loads`. Numbers carry their
literal text: `str()` of the parsed Python number is modelled by that
literal (exact for the integer and plain-decimal numerals that occur in
JSON-LD price fields). Arrays and objects are mutual inductives (instead
of nested `List`s) so that all recursion over them stays structural and
kernel-reducible.
-/
mutual

/-- A parsed JSON value as produced by `json.loads`. -/
inductive Json where
  | null
  | bool (b : Bool)
  | num (lit : String)
  | str (s : String)
  | arr (xs : JsonArr)
  | obj (fields : JsonObj)

/-- The sequence of elements of a JSON array. -/
inductive JsonArr where
  | nil
  | cons (hd : Json) (tl : JsonArr)

/-- The key/value fields of a JSON object. -/
inductive JsonObj where
  | nil
  | cons (key : String) (val : Json) (tl : JsonObj)

end

/-- Lookup in a JSON object; for duplicate keys `json.loads` keeps the
last occurrence, as does this lookup. -/
def jsonObjGet : JsonObj → String → Option Json
  | .nil, _ => none
  | .cons key v t, k =>
      match jsonObjGet t k with
      | some r => some r
      | none => if key == k then some v else none

/-- `data.get(key)` (`none` both for a non-object and for a missing
key). -/
def jsonGet : Json → String → Option Json
  | .obj fs, k => jsonObjGet fs k
  | _, _ => none

/-- First element of a JSON array. -/
def jsonArrHead : JsonArr → Option Json
  | .nil => none
  | .cons h _ => some h

/-- A JSON numeral denotes zero iff all of its digits are `'0'`. -/
def numLitIsZero (lit : String) : Bool :=
  lit.data.all (fun c => !c.isDigit || c = '0')

/-- Python truthiness of a parsed JSON value. -/
def jsonTruthy : Json → Bool
  | .null => false
  | .bool b => b
  | .num lit => !numLitIsZero lit
  | .str s => !s.isEmpty
  | .arr .nil => false
  | .arr (.cons _ _) => true
  | .obj .nil => false
  | .obj (.cons _ _ _) => true

/-- Python `a or b` on `.get` results (the left value when truthy,
otherwise the right). -/
def pyOrJson (a b : Option Json) : Option Json :=
  match a with
  | some v => if jsonTruthy v then some v else b
  | none => b

/-- Python `str()` of a parsed JSON value (container renderings elided:
they never parse as prices, matching `float`'s failure on them). -/
def jsonPyStr : Json → String
  | .null => "None"
  | .bool true => "True"
  | .bool false => "False"
  | .num lit => lit
  | .str s => s
  | .arr _ => "[...]"
  | .obj _ => "\x7b...\x7d"

/-- `j == "s"` for a JSON value against a string constant. -/
def jsonIsStr (j : Json) (s : String) : Bool :=
  match j with
  | .str t => t == s
  | _ => false

/-- `JSON_LD_PRODUCT_TYPES` from `core/constants.py`. -/
def JSON_LD_PRODUCT_TYPES : List String :=
  ["Product", "IndividualProduct", "ProductModel"]

mutual

/-- Structural size of a JSON value, used as recursion fuel. -/
def jsonSize : Json → ℕ
  | .null => 1
  | .bool _ => 1
  | .num _ => 1
  | .str _ => 1
  | .arr xs => 1 + jsonArrSize xs
  | .obj fs => 1 + jsonObjSize fs

/-- Size of a JSON array body. -/
def jsonArrSize : JsonArr → ℕ
  | .nil => 1
  | .cons h t => 1 + jsonSize h + jsonArrSize t

/-- Size of a JSON object body. -/
def jsonObjSize : JsonObj → ℕ
  | .nil => 1
  | .cons _ v t => 1 + jsonSize v + jsonObjSize t

end

mutual

/-- `JsonLdStrategy._find_product` (`scraper/strategies.py` lines 79-113),
fuel-indexed for structural recursion (the caller passes twice `jsonSize`,
which bounds every recursion chain: each recursive call descends into a
strict subterm); `findProductArr` is the `for item in data` loop over a
JSON array (first item with a truthy result). -/
def findProduct : ℕ → Json → Option Json
  | 0, _ => none
  | fuel + 1, data =>
      match data with
      | .arr items => findProductArr fuel items
      | .obj _ =>
          match jsonGet data "@graph" with
          | some g => findProduct fuel g
          | none =>
              let t0 := (jsonGet data "@type").getD (.str "")
              let itemType := match t0 with
                | .arr xs => (jsonArrHead xs).getD (.str "")
                | t => t
              if JSON_LD_PRODUCT_TYPES.any (fun t => jsonIsStr itemType t) then some data
              else
                match jsonGet data "mainEntity" with
                | some m =>
                    match findProduct fuel m with
                    | some r => some r
                    | none =>
                        match jsonGet data "mainEntityOfPage" with
                        | some m2 => findProduct fuel m2
                        | none => none
                | none =>
                    match jsonGet data "mainEntityOfPage" with
                    | some m2 => findProduct fuel m2
                    | none => none
      | _ => none

/-- The `for item in data` loop of `_find_product`. -/
def findProductArr : ℕ → JsonArr → Option Json
  | _, .nil => none
  | 0, .cons _ _ => none
  | fuel + 1, .cons item rest =>
      match findProduct fuel item with
      | some r => some r
      | none => findProductArr fuel rest

end

/-- `JsonLdStrategy._parse_offers` (`scraper/strategies.py` lines
148-177): price from `lowPrice` (AggregateOffer) or `price`, currency,
and substring-based availability. A non-string `availability` leaves the
default `in_stock = True`; a missing one compares against `""` and yields
`False`. -/
def parseOffers (offers0 : Json) (r0 : ProductData) : ProductData :=
  let offers := match offers0 with
    | .arr xs => (jsonArrHead xs).getD (.obj .nil)
    | o => o
  match offers with
  | .obj _ =>
      let offerType := (jsonGet offers "@type").getD (.str "")
      let priceStr :=
        if jsonIsStr offerType ("AggregateOffer") then
          pyOrJson (jsonGet offers "lowPrice") (jsonGet offers "price")
        else jsonGet offers "price"
      let r1 := match priceStr with
        | some ps =>
            if jsonTruthy ps then { r0 with price := normalize_price (jsonPyStr ps) }
            else r0
        | none => r0
      let r2 := { r1 with currency := (match jsonGet offers "priceCurrency" with
        | some (.str c) => c
        | _ => "CAD") }
      match (jsonGet offers "availability").getD (.str "") with
      | .str av =>
          { r2 with in_stock :=
              (["instock", "in stock", "available", "preorder", "pre-order"].any
                (fun st => strHasSub av.toLower st)) }
      | _ => r2
  | _ => r0

/-- `JsonLdStrategy._parse_product` (`scraper/strategies.py` lines
115-146). A non-string `name` makes `sanitize_product_name` raise
`TypeError` (modelled as `none`); otherwise the assembled `ProductData` is
returned WHETHER OR NOT it is complete (the final line returns `result` in
both arms of its conditional). -/
def parseProduct (data : Json) : Option ProductData :=
  match (jsonGet data "name").getD (.str "") with
  | .str nm =>
      let r : ProductData :=
        { strategy_used := some .JSON_LD, name := some (sanitize_product_name nm) }
      let r := match jsonGet data "brand" with
        | some (.obj fs) =>
            { r with brand := (match jsonGet (.obj fs) "name" with
                | some (.str b) => some b
                | _ => none) }
        | some (.str b) => { r with brand := some b }
        | _ => r
      let r := { r with upc :=
        (match pyOrJson (jsonGet data "gtin13")
            (pyOrJson (jsonGet data "gtin") (jsonGet data "sku")) with
        | some v => some (jsonPyStr v)
        | none => none) }
      let r := match jsonGet data "image" with
        | some (.arr xs) =>
            { r with image_url := (match jsonArrHead xs with
                | some v => some (jsonPyStr v)
                | none => none) }
        | some (.obj fs) =>
            { r with image_url := (jsonGet (.obj fs) "url").map jsonPyStr }
        | some .null => { r with image_url := none }
        | some v => { r with image_url := some (jsonPyStr v) }
        | none => { r with image_url := none }
      let r := match jsonGet data "offers" with
        | some o => if jsonTruthy o then parseOffers o r else r
        | none => r
      some r
  | _ => none

/-- `JsonLdStrategy.extract` (`scraper/strategies.py` lines 59-77) over
the parsed payloads of the page's JSON-LD scripts (`none` entries model
`json.JSONDecodeError`); both a decode error and a `TypeError` from
`_parse_product` make the loop continue with the next script. -/
def jsonldExtract : List (Option Json) → Option ProductData
  | [] => none
  | s :: rest =>
      match s with
      | none => jsonldExtract rest
      | some data =>
          match findProduct (2 * jsonSize data) data with
          | some product =>
              match parseProduct product with
              | some r => some r
              | none => jsonldExtract rest
          | none => jsonldExtract rest

/-- A DOM element as read by the CSS strategy: its `get_text(strip=True)`
text, tag name, and image attributes. -/
structure Elem where
  text : String
  tag : String := "div"
  src : Option String := none
  dataSrc : Option String := none

/-- The XPath part of a selector dictionary (`selectors["xpath"]`);
absent or empty dictionaries are `none`. -/
structure XPathSel where
  price : List String := []
  name : List String := []

/-- A store's selector dictionary as read by the CSS/XPath strategies
(missing keys are empty lists). -/
structure Selectors where
  price : List String := []
  name : List String := []
  original_price : List String := []
  image : List String := []
  availabilityCss : List String := []
  inStockPatterns : List String := []
  xpath : Option XPathSel := none

/-- The page as observed by the strategies: JSON-LD script payloads,
`soup.select_one` results per CSS selector, and `tree.xpath` first-result
text per XPath expression (`xpathOk = false` models `etree.HTML`
returning `None`). -/
structure Page where
  scripts : List (Option Json) := []
  css : List (String × Elem) := []
  xpathOk : Bool := true
  xpath : List (String × String) := []

/-- `soup.select_one(selector)`. -/
def cssLookup (page : Page) (sel : String) : Option Elem :=
  (page.css.find? (fun p => p.1 == sel)).map (fun p => p.2)

/-- The per-field CSS selector loop for prices: first selector whose
matched text normalises to a truthy price (`normalize_price` never yields
0, so Python's `if result.price: break` is "first parse success"). -/
def cssFirstPrice (page : Page) : List String → Option ℚ
  | [] => none
  | sel :: rest =>
      match cssLookup page sel with
      | some el =>
          match normalize_price el.text with
          | some p => if ¬ p = 0 then some p else cssFirstPrice page rest
          | none => cssFirstPrice page rest
      | none => cssFirstPrice page rest

/-- The per-field CSS selector loop for the product name (an all-empty
outcome leaves a falsy name, which the completeness check below treats
exactly like `None`). -/
def cssFirstName (page : Page) : List String → Option String
  | [] => none
  | sel :: rest =>
      match cssLookup page sel with
      | some el =>
          let nm := sanitize_product_name el.text
          if ¬ nm = "" then some nm else cssFirstName page rest
      | none => cssFirstName page rest

/-- `CssSelectorStrategy._extract_availability` (`scraper/strategies.py`
lines 243-265): in-stock pattern match or a `button` element returns
`True`; falling through every selector also returns `True`. -/
def extractAvailabilityLoop (page : Page) (pats : List String) :
    List String → Bool
  | [] => true
  | sel :: rest =>
      match cssLookup page sel with
      | some el =>
          if pats.any (fun p => strHasSub el.text.toLower p.toLower) then true
          else if el.tag = "button" then true
          else extractAvailabilityLoop page pats rest
      | none => extractAvailabilityLoop page pats rest

/-- Leading-`//` test for protocol-relative image URLs. -/
def startsWithSlashSlash (u : String) : Bool :=
  match u.data with
  | '/' :: '/' :: _ => true
  | _ => false

/-- The image selector loop: `src` or `data-src`, protocol-relative URLs
rewritten with an `https:` prefix. -/
def cssFirstImage (page : Page) : List String → Option String
  | [] => none
  | sel :: rest =>
      match cssLookup page sel with
      | some el =>
          let img := match el.src with
            | some v => if ¬ v = "" then some v else el.dataSrc
            | none => el.dataSrc
          match img with
          | some u =>
              if ¬ u = "" then
                some (if startsWithSlashSlash u then "https:" ++ u else u)
              else cssFirstImage page rest
          | none => cssFirstImage page rest
      | none => cssFirstImage page rest

/-- `CssSelectorStrategy.extract` (`scraper/strategies.py` lines 185-241):
`none` for a missing/empty selector dictionary and whenever name and price
are not both truthy. -/
def cssExtract (page : Page) (selectors : Option Selectors) : Option ProductData :=
  match selectors with
  | none => none
  | some sels =>
      match cssFirstName page sels.name, cssFirstPrice page sels.price with
      | some nm, some p =>
          some { name := some nm, price := some p,
                 original_price := cssFirstPrice page sels.original_price,
                 in_stock := extractAvailabilityLoop page sels.inStockPatterns
                   sels.availabilityCss,
                 image_url := cssFirstImage page sels.image,
                 strategy_used := some .CSS_SELECTOR }
      | _, _ => none

/-- `tree.xpath(x)` restricted to the text of the first result. -/
def xpathLookup (page : Page) (x : String) : Option String :=
  (page.xpath.find? (fun p => p.1 == x)).map (fun p => p.2)

/-- The XPath price loop. -/
def xpathFirstPrice (page : Page) : List String → Option ℚ
  | [] => none
  | x :: rest =>
      match xpathLookup page x with
      | some t =>
          match normalize_price t with
          | some p => if ¬ p = 0 then some p else xpathFirstPrice page rest
          | none => xpathFirstPrice page rest
      | none => xpathFirstPrice page rest

/-- The XPath name loop. -/
def xpathFirstName (page : Page) : List String → Option String
  | [] => none
  | x :: rest =>
      match xpathLookup page x with
      | some t =>
          let nm := sanitize_product_name t
          if ¬ nm = "" then some nm else xpathFirstName page rest
      | none => xpathFirstName page rest

/-- `XPathStrategy.extract` (`scraper/strategies.py` lines 273-318):
`none` without an `xpath` selector entry, on an unparseable tree, and
whenever name and price are not both truthy. -/
def xpathExtract (page : Page) (selectors : Option Selectors) : Option ProductData :=
  match selectors with
  | none => none
  | some sels =>
      match sels.xpath with
      | none => none
      | some xsel =>
          if !page.xpathOk then none
          else
            match xpathFirstName page xsel.name, xpathFirstPrice page xsel.price with
            | some nm, some p =>
                some { name := some nm, price := some p,
                       strategy_used := some .XPATH }
            | _, _ => none

/-- `LlmExtractionStrategy.extract` (`scraper/strategies.py` lines
338-348): the stub returns `None` with or without a wired client. -/
def llmExtract (_llm_client : Bool) : Option ProductData :=
  none

/-- Truthiness of the engine's completeness check `result and result.name
and result.price` on a non-`None` result. -/
def isCompleteTruthy (r : ProductData) : Bool :=
  (match r.name with
   | some s => !s.isEmpty
   | none => false) &&
  (match r.price with
   | some p => decide (¬ p = 0)
   | none => false)

/-- The body of the `for strategy in self._strategies` loop:
`if result and result.name and result.price: return result`. -/
def completeStep (r : Option ProductData) : Option ProductData :=
  match r with
  | some res => if isCompleteTruthy res then some res else none
  | none => none

/-- `ScraperEngine._extract` (`scraper/engine.py` lines 315-350): the
strategies in their fixed construction order JSON-LD, CSS, XPath, LLM;
the LLM strategy is skipped without a client; the first result passing
the completeness check is returned. -/
def engineExtract (page : Page) (selectors : Option Selectors)
    (llm_client : Bool) : Option ProductData :=
  match completeStep (jsonldExtract page.scripts) with
  | some r => some r
  | none =>
      match completeStep (cssExtract page selectors) with
      | some r => some r
      | none =>
          match completeStep (xpathExtract page selectors) with
          | some r => some r
          | none =>
              if llm_client then completeStep (llmExtract llm_client) else none

/-- The four strategy outputs in waterfall order (`none` in the last slot
when the LLM strategy is skipped). -/
def strategyOutputs (page : Page) (selectors : Option Selectors)
    (llm_client : Bool) : List (Option ProductData) :=
  [jsonldExtract page.scripts, cssExtract page selectors,
   xpathExtract page selectors,
   if llm_client then llmExtract llm_client else none]

/-- First output that is present and passes the completeness check. -/
def firstComplete (outs : List (Option ProductData)) : Option ProductData :=
  outs.findSome? completeStep

/-! ## `scraper/rate_limiter.py`: sliding-window rate limiter -/

/-- `RateLimitState`: the per-window request timestamps (float seconds,
modelled as exact rationals), the admission limit, and the window length.
The defaults mirror `RateLimitState(limit=10, window_seconds=60)`. -/
structure RateLimitState where
  requests : List ℚ := []
  limit : ℕ := 10
  window_seconds : ℚ := 60

/-- `RateLimitState.clean_old_requests` at the current time: keep
timestamps strictly newer than `now - window_seconds`. -/
def cleanOld (st : RateLimitState) (now : ℚ) : RateLimitState :=
  { st with requests :=
      st.requests.filter (fun t => decide (now - st.window_seconds < t)) }

/-- `RateLimitState.wait_time`: clean in place, then zero wait below the
limit, else the wait until the oldest surviving timestamp leaves the
window. (`min([])` raises in Python; that branch is unreachable for limits
at least 1 and modelled as zero wait.) -/
def waitTime (st : RateLimitState) (now : ℚ) : RateLimitState × ℚ :=
  if (cleanOld st now).requests.length < (cleanOld st now).limit then
    (cleanOld st now, 0)
  else
    match (cleanOld st now).requests.min? with
    | some oldest =>
        (cleanOld st now, max 0 (oldest + (cleanOld st now).window_seconds - now))
    | none => (cleanOld st now, 0)

/-- `RateLimitState.record_request` at time `c`. -/
def recordRequest (st : RateLimitState) (c : ℚ) : RateLimitState :=
  { st with requests := st.requests ++ [c] }

/-- `RateLimiter`: the global window plus the per-store `defaultdict`,
modelled as a total map whose default is the fresh
`RateLimitState(limit=10, window_seconds=60)`. -/
structure RateLimiter where
  globalState : RateLimitState := {}
  stores : String → RateLimitState := fun _ => {}

/-- `self._stores[domain]` (the `defaultdict` default for unseen
domains). -/
def getStore (rl : RateLimiter) (domain : String) : RateLimitState :=
  rl.stores domain

/-- Store an updated per-domain state. -/
def setStore (rl : RateLimiter) (domain : String) (st : RateLimitState) :
    RateLimiter :=
  { rl with stores := fun d => if d = domain then st else rl.stores d }

/-- `RateLimiter.set_store_limit` (`scraper/rate_limiter.py` lines 73-84).
Its two source branches — a fresh `RateLimitState(limit=limit)` for an
absent domain, updating `.limit` in place otherwise — coincide in the
total-map model, because an absent domain already reads as the fresh
default state. -/
def set_store_limit (rl : RateLimiter) (domain : String) (limit : ℕ) :
    RateLimiter :=
  setStore rl domain { getStore rl domain with limit := limit }

/-- `RateLimiter.acquire` (`scraper/rate_limiter.py` lines 86-115) entered
at time `now` (the lock is held throughout, sleep included): compute both
waits on the cleaned states, raise `RateLimitError` beyond 30 seconds
(`none`, with the cleaning persisted), otherwise sleep the wait and record
the request at `now + wait` in both windows. -/
def acquire (rl : RateLimiter) (domain : String) (now : ℚ) :
    RateLimiter × Option ℚ :=
  let gw := waitTime rl.globalState now
  let sw := waitTime (getStore rl domain) now
  let w := max gw.2 sw.2
  let rlClean := setStore { rl with globalState := gw.1 } domain sw.1
  if 30 < w then (rlClean, none)
  else
    let c := now + w
    (setStore { rl with globalState := recordRequest gw.1 c } domain
      (recordRequest sw.1 c), some c)

/-- A serialized sequence of `acquire` calls: each request carries its
domain and arrival time; the lock makes the n-th call start no earlier
than the completion of the previous one (`max clock arrival`). Returns
the final limiter and the list of admissions `(domain, admission time)`. -/
def runLimiter (rl : RateLimiter) (clock : ℚ) :
    List (String × ℚ) → RateLimiter × List (String × ℚ)
  | [] => (rl, [])
  | (d, arrival) :: rest =>
      let now := max clock arrival
      match acquire rl d now with
      | (rl', some c) =>
          let r := runLimiter rl' c rest
          (r.1, (d, c) :: r.2)
      | (rl', none) => runLimiter rl' now rest

/-- Admission times of host `d` in an admission list. -/
def histTimes (d : String) (hist : List (String × ℚ)) : List ℚ :=
  (hist.filter (fun p => p.1 == d)).map (fun p => p.2)

/-- Number of admissions for host `d` in the 60-second window `(T-60, T]`. -/
def countWindow (hist : List (String × ℚ)) (d : String) (T : ℚ) : ℕ :=
  ((histTimes d hist).filter
    (fun t => decide (T - 60 < t) && decide (t ≤ T))).length

/-- The invariant tying a limiter state to the admission history at a
given clock: every admission is in the past; every per-store window is 60
seconds with a positive limit; the stored request list is the admission
history filtered by some past cleaning time; and every 60-second window
holds at most `limit` admissions. -/
def LimInv (rl : RateLimiter) (clock : ℚ) (hist : List (String × ℚ)) : Prop :=
  (∀ p ∈ hist, p.2 ≤ clock) ∧
  ∀ d, (getStore rl d).window_seconds = 60 ∧ 1 ≤ (getStore rl d).limit ∧
    (∃ s, s ≤ clock ∧ (getStore rl d).requests =
      (histTimes d hist).filter (fun t => decide (s - 60 < t))) ∧
    (∀ T, countWindow hist d T ≤ (getStore rl d).limit)

/-- The limiter obtained from a fresh `RateLimiter(global_limit)` after
the engine's `set_store_limit` calls for the configured stores. -/
def initLimiter (g : ℕ) (cfg : List (String × ℕ)) : RateLimiter :=
  cfg.foldl (fun rl p => set_store_limit rl p.1 p.2)
    { globalState := { limit := g } }

/-! ## C7: cron parsing, firing times and schedule creation
(`scheduler/triggers.py`; the croniter firing-time semantics are not part
of the repository and are modelled from the spec's "five-field standard
cron"). -/

/-- Modelled from the spec: a proleptic-Gregorian calendar date. -/
structure CronDate where
  year : ℕ
  month : ℕ
  day : ℕ
deriving DecidableEq

/-- Modelled from the spec: a date plus a minute-of-day (cron has minute
granularity). -/
structure CronDateTime where
  date : CronDate
  tod : ℕ
deriving DecidableEq

/-- Modelled from the spec: Gregorian leap years. -/
def isLeap (y : ℕ) : Bool :=
  (y % 4 == 0 && !(y % 100 == 0)) || (y % 400 == 0)

/-- Modelled from the spec: days in a month. -/
def daysInMonth (y mo : ℕ) : ℕ :=
  if mo = 2 then (if isLeap y then 29 else 28)
  else if mo = 4 ∨ mo = 6 ∨ mo = 9 ∨ mo = 11 then 30
  else 31

/-- Modelled from the spec: the following calendar day. -/
def nextDate (d : CronDate) : CronDate :=
  if d.day < daysInMonth d.year d.month then ⟨d.year, d.month, d.day + 1⟩
  else if d.month < 12 then ⟨d.year, d.month + 1, 1⟩
  else ⟨d.year + 1, 1, 1⟩

/-- Modelled from the spec: days of the year before the given month. -/
def monthOffset (y mo : ℕ) : ℕ :=
  let l : ℕ := if isLeap y then 1 else 0
  match mo with
  | 1 => 0
  | 2 => 31
  | 3 => 59 + l
  | 4 => 90 + l
  | 5 => 120 + l
  | 6 => 151 + l
  | 7 => 181 + l
  | 8 => 212 + l
  | 9 => 243 + l
  | 10 => 273 + l
  | 11 => 304 + l
  | 12 => 334 + l
  | _ => 0

/-- Modelled from the spec: days since January 1 of year 1. -/
def absDay (d : CronDate) : ℕ :=
  365 * (d.year - 1) +
    ((d.year - 1) / 4 - (d.year - 1) / 100 + (d.year - 1) / 400) +
    monthOffset d.year d.month + (d.day - 1)

/-- Modelled from the spec: standard-cron weekday number (0 = Sunday).
January 1 of year 1 is a Monday in the proleptic Gregorian calendar. -/
def cronDow (d : CronDate) : ℕ :=
  (absDay d + 1) % 7

/-- Modelled from the spec: a decimal numeral field component. -/
def parseNatF (cs : List Char) : Option ℕ :=
  if ¬ cs.isEmpty ∧ cs.all (fun ch => ch.isDigit) then some (digitsToNat cs)
  else none

/-- Modelled from the spec: the values `a`, `a+s`, ... up to `b`. -/
def rangeByStep (a b s : ℕ) : List ℕ :=
  (List.range' a (b + 1 - a)).filter (fun v => (v - a) % s == 0)

/-- Modelled from the spec: the `a`/`a-b`/`*` part of one field item.
`single_to_hi` reflects that `a/s` abbreviates `a-max/s`. -/
def parseRangePart (lo hi : ℕ) ( single_to_hi : Bool) (body : List Char) :
    Option (ℕ × ℕ) :=
  if body = ['*'] then some (lo, hi)
  else
    match splitOnChar '-' body [] with
    | [a] => (parseNatF a).map (fun va => (va, if single_to_hi then hi else va))
    | [a, b] =>
        (match parseNatF a, parseNatF b with
         | some va, some vb => some (va, vb)
         | _, _ => none)
    | _ => none

/-- Modelled from the spec: a validated, expanded range with step. -/
def mkRange (lo hi a b s : ℕ) : Option (List ℕ) :=
  if lo ≤ a ∧ a ≤ b ∧ b ≤ hi ∧ 1 ≤ s then some (rangeByStep a b s) else none

/-- Modelled from the spec: one comma-separated item of a cron field,
optionally with a `/step` suffix. -/
def parseItem (lo hi : ℕ) (cs : List Char) : Option (List ℕ) :=
  match splitOnChar '/' cs [] with
  | [body] =>
      (match parseRangePart lo hi false body with
       | some (a, b) => mkRange lo hi a b 1
       | none => none)
  | [body, stepCs] =>
      (match parseRangePart lo hi true body, parseNatF stepCs with
       | some (a, b), some s => mkRange lo hi a b s
       | _, _ => none)
  | _ => none

/-- Modelled from the spec: a whole cron field as its set of admitted
values, bounds taken from the repository's `CRON_FIELD_RANGES`. -/
def parseField (lo hi : ℕ) (cs : List Char) : Option (List ℕ) :=
  (splitOnChar ',' cs []).foldr
    (fun it acc =>
      match parseItem lo hi it, acc with
      | some l, some r => some (l ++ r)
      | _, _ => none)
    (some [])

/-- Modelled from the spec: a parsed five-field schedule. The `domStar`
and `dowStar` flags record whether the day-of-month and day-of-week
fields were unrestricted, for the standard-cron day-matching rule. -/
structure CronSchedule where
  minutes : List ℕ
  hours : List ℕ
  doms : List ℕ
  months : List ℕ
  dows : List ℕ
  domStar : Bool
  dowStar : Bool
deriving DecidableEq

/-- Modelled from the spec: exactly `*`. -/
def isStarField (cs : List Char) : Bool :=
  cs == ['*']

/-- Modelled from the spec: parse a five-field standard cron expression
(whitespace-separated, as in `validate_cron`'s `strip`/`split`). -/
def parseCron (e : String) : Option CronSchedule :=
  match pySplitWs e.data with
  | [miF, hF, domF, moF, dwF] =>
      (match parseField 0 59 miF, parseField 0 23 hF, parseField 1 31 domF,
          parseField 1 12 moF, parseField 0 6 dwF with
       | some mis, some hs, some ds, some mos, some dws =>
           some ⟨mis, hs, ds, mos, dws, isStarField domF, isStarField dwF⟩
       | _, _, _, _, _ => none)
  | _ => none

/-- Modelled from the spec: all firing minutes-of-day of a schedule. -/
def todCandidates (c : CronSchedule) : List ℕ :=
  (c.hours.map (fun h => c.minutes.map (fun mi => h * 60 + mi))).flatten

/-- Modelled from the spec: the earliest firing minute-of-day strictly
after `t`, if any. -/
def firstTodAfter (c : CronSchedule) (t : ℕ) : Option ℕ :=
  ((todCandidates c).filter (fun v => decide (t < v))).min?

/-- Modelled from the spec: the earliest firing minute-of-day. -/
def firstTodAny (c : CronSchedule) : Option ℕ :=
  (todCandidates c).min?

/-- Modelled from the spec: whether a schedule fires on a given day —
month must match, and day-of-month / day-of-week combine with the
standard-cron rule (OR when both fields are restricted, AND otherwise). -/
def dayMatches (c : CronSchedule) (d : CronDate) : Bool :=
  decide (d.month ∈ c.months) &&
    (if !c.domStar && !c.dowStar then
       decide (d.day ∈ c.doms) || decide (cronDow d ∈ c.dows)
     else decide (d.day ∈ c.doms) && decide (cronDow d ∈ c.dows))

/-- Modelled from the spec: scan forward day by day for the first firing
day, accumulating the minutes elapsed since the base time (`acc` is the
distance from the base to midnight of the day under inspection). -/
def findDay (c : CronSchedule) : ℕ → CronDate → ℕ → Option (CronDateTime × ℕ)
  | 0, _, _ => none
  | fuel + 1, d, acc =>
      if dayMatches c d then
        match firstTodAny c with
        | some v => some (⟨d, v⟩, acc + v)
        | none => none
      else findDay c fuel (nextDate d) (acc + 1440)

/-- Modelled from the spec: the search horizon in days for the next
firing (ten years, beyond any five-field cron gap). -/
def CRON_SEARCH_DAYS : ℕ := 3660

/-- Modelled from the spec: croniter's `get_next` — the first firing
strictly after `base`, together with the elapsed minutes. -/
def nextFireE (c : CronSchedule) (base : CronDateTime) (fuel : ℕ) :
    Option (CronDateTime × ℕ) :=
  match (if dayMatches c base.date then firstTodAfter c base.tod else none) with
  | some v => some (⟨base.date, v⟩, v - base.tod)
  | none => findDay c fuel (nextDate base.date) (1440 - base.tod)

/-- `CronValidation` (`scheduler/triggers.py` lines 33-41), with the
datetime fields in the minute model. -/
structure CronValidation where
  valid : Bool
  error : Option String := none
  next_run : Option CronDateTime := none
  interval_hours : Option ℚ := none

/-- `MIN_INTERVAL_HOURS` (`scheduler/triggers.py` line 17). -/
def MIN_INTERVAL_HOURS : ℕ := 24

/-- `validate_cron` (`scheduler/triggers.py` lines 55-98) against an
explicit base time: five whitespace-separated fields, croniter parse,
then the interval between the next two firings in hours
(`total_seconds() / 3600` = minutes / 60). Parse failures and failing
firing searches land in the invalid branch. -/
def validate_cron (e : String) (base : CronDateTime) : CronValidation :=
  if (pySplitWs e.data).length ≠ 5 then
    { valid := false, error := some ("Expected 5 fields") }
  else
    match parseCron e with
    | none => { valid := false, error := some ("bad expression") }
    | some c =>
        match nextFireE c base CRON_SEARCH_DAYS with
        | none => { valid := false, error := some ("no next run") }
        | some (n1, _) =>
            match nextFireE c n1 CRON_SEARCH_DAYS with
            | none => { valid := false, error := some ("no second run") }
            | some (_, e2) =>
                { valid := true, next_run := some n1,
                  interval_hours := some ((e2 : ℚ) / 60) }

/-- Python truthiness of the optional float `interval_hours`. -/
def pyTruthyOptQ : Option ℚ → Bool
  | none => false
  | some q => !(decide (q = 0))

/-- `validate_cron_with_minimum` (`scheduler/triggers.py` lines 101-129):
the minimum-interval check is guarded by the truthiness of
`interval_hours`. -/
def validate_cron_with_minimum (e : String) (base : CronDateTime)
    (min_hours : ℕ) : CronValidation :=
  let v := validate_cron e base
  if !v.valid then v
  else if pyTruthyOptQ v.interval_hours &&
      (match v.interval_hours with
       | some q => decide (q < (min_hours : ℚ))
       | none => false) then
    { valid := false, error := some ("Interval below minimum"),
      interval_hours := v.interval_hours }
  else v

/-- The `Schedule` row as created by `create_schedule`. -/
structure ScheduleRow where
  product_id : Option ℕ
  store_domain : Option String
  cron_expression : String
  is_active : Bool
  next_run_at : Option CronDateTime

/-- Python truthiness of an optional integer id. -/
def pyTruthyOptNat : Option ℕ → Bool
  | none => false
  | some n => !(n == 0)

/-- Python truthiness of an optional string. -/
def pyTruthyOptStr : Option String → Bool
  | none => false
  | some s => !s.isEmpty

/-- `create_schedule` (`scheduler/triggers.py` lines 249-294) against an
explicit base time: requires a product id or store domain, validates the
expression (with the 24-hour minimum when `validate_minimum`), raises
`ValueError` (`Except.error`) on invalid input, and otherwise creates the
schedule row. -/
def create_schedule (base : CronDateTime) (cron_expression : String)
    (product_id : Option ℕ) (store_domain : Option String)
    (validate_minimum : Bool) : Except String ScheduleRow :=
  if !pyTruthyOptNat product_id && !pyTruthyOptStr store_domain then
    Except.error ("Either product_id or store_domain must be provided")
  else
    let validation :=
      if validate_minimum then
        validate_cron_with_minimum cron_expression base MIN_INTERVAL_HOURS
      else validate_cron cron_expression base
    if !validation.valid then Except.error ("Invalid CRON expression")
    else Except.ok
      { product_id := product_id, store_domain := store_domain,
        cron_expression := cron_expression, is_active := true,
        next_run_at := validation.next_run }

end Perpee

/-- The total-attempt caps of the claim, corrected by one: `should_retry`
compares the 0-indexed attempt counter BEFORE incrementing, so each
category obtains one attempt more than its retry count (NOT_FOUND alone is
never retried). -/
def c6maxAttempts : Perpee.ErrorCategory → ℕ
  | .NOT_FOUND => 1
  | .FORBIDDEN => 2
  | .BLOCKED => 3
  | .PARSE_ERROR => 3
  | _ => 4

/-- The concrete ANY_CHANGE alert used in the C1 counterexample: active,
with the API-admissible (`ge=0`) threshold 0. -/
def c1ceAlert : Perpee.Alert :=
  { id := 1, alert_type := .ANY_CHANGE, target_value := none,
    min_change_threshold := 0, is_active := true }

/-- The older SENT notification (payload price 95) of the C2
counterexample store. -/
def c2rowOld : Perpee.NotifRecord :=
  { product_id := 1, alert_id := some 1, status := .SENT,
    payload_current_price := some 95, created_at := 10 }

/-- The newer SENT notification (payload price 100) of the C2
counterexample store. -/
def c2rowNew : Perpee.NotifRecord :=
  { product_id := 1, alert_id := some 1, status := .SENT,
    payload_current_price := some 100, created_at := 20 }

/-- The C2 counterexample notification table and dispatch inputs: the
product is rescraped at price 95 at time 21 (both stored rows are within
the 24-hour window). -/
def c2store : List Perpee.NotifRecord := [c2rowOld, c2rowNew]

/-- The product being dispatched in the C2 scenario. -/
def c2product : Perpee.ProductM := { id := 1, name := "Widget", current_price := 95 }

/-- The alert being dispatched in the C2 scenario. -/
def c2alert : Perpee.Alert :=
  { id := 1, alert_type := .ANY_CHANGE, min_change_threshold := 1 }

/-- The concrete JSON-LD payload of the C3 counterexample: a Product node
with a name but no offers (hence no price). -/
def c3ceJson : Perpee.Json :=
  .obj (.cons ("@type") (.str ("Product")) (.cons ("name") (.str ("Widget")) .nil))

namespace Perpee

/-- Length bound for `List.dropWhile`, used for truncation bounds. -/
theorem lengthDropWhileLe {α : Type} (p : α → Bool) (l : List α) :
    (l.dropWhile p).length ≤ l.length :=
  (List.dropWhile_suffix p).length_le

/-- `should_retry` holds exactly when one more attempt stays within the
per-category total-attempt cap. -/
theorem should_retry_iff_lt_catBound (cfg : RetryConfig) (c : ErrorCategory)
    (a : ℕ) : cfg.should_retry c a = true ↔ a + 1 < catBound cfg c := by
  cases c <;> simp [RetryConfig.should_retry, catBound] <;> omega

/-- Every category admits at least one attempt. -/
theorem catBound_pos (cfg : RetryConfig) (c : ErrorCategory) :
    1 ≤ catBound cfg c := by
  cases c <;> simp [catBound]

/-- Behaviour of the retry loop when every error raised by `func` has the
same category `c`: the attempt counter never exceeds the per-category cap,
and a failing run exits exactly at the cap with that category's message. -/
theorem executeAux_bounds {T : Type} (cfg : RetryConfig)
    (func : ℕ → Except PyErr T) (c : ErrorCategory)
    (hcat : ∀ n e, func n = .error e → categorize_error e = c) :
    ∀ fuel attempt, catBound cfg c ≤ attempt + fuel → attempt < catBound cfg c →
      (executeAux cfg func attempt fuel).attempts ≤ catBound cfg c ∧
        ((executeAux cfg func attempt fuel).success = false →
          (executeAux cfg func attempt fuel).attempts = catBound cfg c ∧
            (executeAux cfg func attempt fuel).message =
              buildMessage (some c) (catBound cfg c)) := by
  intro fuel
  induction fuel with
  | zero => intro attempt hle hlt; omega
  | succ fuel ih =>
      intro attempt hle hlt
      cases hf : func attempt with
      | ok v =>
          simp only [executeAux, hf]
          exact ⟨by omega, by intro h; simp at h⟩
      | error e =>
          have hc : categorize_error e = c := hcat attempt e hf
          simp only [executeAux, hf, hc]
          by_cases hr : cfg.should_retry c attempt = true
          · rw [if_pos hr]
            have hlt' : attempt + 1 < catBound cfg c :=
              (should_retry_iff_lt_catBound cfg c attempt).mp hr
            exact ih (attempt + 1) (by omega) hlt'
          · rw [if_neg hr]
            have hge : ¬ (attempt + 1 < catBound cfg c) := fun h =>
              hr ((should_retry_iff_lt_catBound cfg c attempt).mpr h)
            have heq : attempt + 1 = catBound cfg c := by omega
            refine ⟨?_, fun _ => ⟨?_, ?_⟩⟩
            · show attempt + 1 ≤ catBound cfg c
              omega
            · exact heq
            · show buildMessage (some c) (attempt + 1) =
                buildMessage (some c) (catBound cfg c)
              rw [heq]

end Perpee

/-- C6 counterexample: a function that always raises a network error is
attempted 4 times by the default retry engine (3 retries), not the claimed
at-most-3. -/
theorem c6_counterexample :
    (Perpee.executeRetry {}
        (fun _ => (Except.error (Perpee.PyErr.networkErr ("boom")) :
          Except Perpee.PyErr Unit))).attempts = 4 := by
  decide

/-- Claim C6 (amended): under the default configuration, when every error
a function raises has category c, the retry engine performs at most 4
attempts for network/timeout/server (and rate-limited) errors, 2 for
forbidden, 3 for blocked and parse errors, and exactly 1 for NOT_FOUND
(never retried); a run that ends in failure performs exactly that many
attempts, and the final user-visible message for NOT_FOUND is "Product
page not found (404). The URL may be incorrect.". -/
theorem c6_retry_attempt_bounds {T : Type} (func : ℕ → Except Perpee.PyErr T)
    (c : Perpee.ErrorCategory)
    (hcat : ∀ n e, func n = Except.error e → Perpee.categorize_error e = c) :
    (Perpee.executeRetry {} func).attempts ≤ c6maxAttempts c ∧
      ((Perpee.executeRetry {} func).success = false →
        (Perpee.executeRetry {} func).attempts = c6maxAttempts c) ∧
      (c = .NOT_FOUND → (Perpee.executeRetry {} func).success = false →
        (Perpee.executeRetry {} func).message =
          "Product page not found (404). The URL may be incorrect.") := by
  have hb : Perpee.catBound {} c = c6maxAttempts c := by
    cases c <;> rfl
  have h0 := Perpee.executeAux_bounds {} func c hcat (max 3 2 + 2) 0
    (by rw [hb]; cases c <;> simp [c6maxAttempts])
    (by rw [hb]; cases c <;> simp [c6maxAttempts])
  rw [hb] at h0
  have h : (Perpee.executeRetry {} func).attempts ≤ c6maxAttempts c ∧
      ((Perpee.executeRetry {} func).success = false →
        (Perpee.executeRetry {} func).attempts = c6maxAttempts c ∧
          (Perpee.executeRetry {} func).message =
            Perpee.buildMessage (some c) (c6maxAttempts c)) := h0
  refine ⟨h.1, fun hs => (h.2 hs).1, fun hnf hs => ?_⟩
  subst hnf
  rw [(h.2 hs).2]
  rfl

/-- Witness for C6: the always-404 function is attempted exactly once and
surfaces the canned NOT_FOUND sentence. -/
theorem c6_witness :
    (Perpee.executeRetry {}
        (fun _ => (Except.error (Perpee.PyErr.notFoundErr ("Page not found")) :
          Except Perpee.PyErr Unit))).attempts = 1 ∧
      (Perpee.executeRetry {}
        (fun _ => (Except.error (Perpee.PyErr.notFoundErr ("Page not found")) :
          Except Perpee.PyErr Unit))).message
        = "Product page not found (404). The URL may be incorrect." := by
  have h := c6_retry_attempt_bounds
    (fun _ => (Except.error (Perpee.PyErr.notFoundErr ("Page not found")) :
      Except Perpee.PyErr Unit))
    Perpee.ErrorCategory.NOT_FOUND
    (fun n e he => by
      cases he
      rfl)
  exact ⟨(h.2.1 (by decide)).trans rfl, h.2.2 rfl (by decide)⟩

/-- C8 counterexample: a 501-character product name is truncated to 500
characters and then `"..."` is appended, so `sanitize_product_name`
returns 503 characters, more than the claimed 500-character bound. -/
theorem c8_counterexample :
    500 < (Perpee.sanitize_product_name (String.mk (List.replicate 501 'a'))).length := by
  decide

/-- Claim C8 (amended): the product-name sanitizer removes HTML tags,
normalizes whitespace, strips long punctuation runs, and truncates to 500
characters plus an appended three-character ellipsis, so the returned
product name is at most 503 characters long. -/
theorem c8_sanitize_product_name_length (s : String) :
    (Perpee.sanitize_product_name s).length ≤ 503 := by
  have hstrip : ∀ cs : List Char, (Perpee.pyStripChars cs).length ≤ cs.length := by
    intro cs
    unfold Perpee.pyStripChars
    calc ((cs.dropWhile Perpee.isPyWs).reverse.dropWhile Perpee.isPyWs).reverse.length
        = ((cs.dropWhile Perpee.isPyWs).reverse.dropWhile Perpee.isPyWs).length :=
          List.length_reverse _
      _ ≤ (cs.dropWhile Perpee.isPyWs).reverse.length :=
          Perpee.lengthDropWhileLe _ _
      _ = (cs.dropWhile Perpee.isPyWs).length := List.length_reverse _
      _ ≤ cs.length := Perpee.lengthDropWhileLe _ _
  have htrunc : ∀ cs : List Char, (Perpee.truncName cs).length ≤ 503 := by
    intro cs
    unfold Perpee.truncName
    by_cases h : 500 < cs.length
    · rw [if_pos h]
      simp [List.length_take]
    · rw [if_neg h]
      omega
  show (Perpee.pyStripChars (Perpee.truncName _)).length ≤ 503
  exact le_trans (hstrip _) (htrunc _)

/-- Claim C9: a string that parses as neither IPv4 nor IPv6 is treated as
private by `is_private_ip`, and the SSRF guard of
`resolve_and_validate_url` therefore rejects a host one of whose resolved
addresses is unparseable. -/
theorem c9_unparseable_ip_is_private (s : String) (resolved : List String)
    (h1 : Perpee.parseIP s = none) (h2 : s ∈ resolved) :
    Perpee.is_private_ip s = true ∧
      ∃ e, Perpee.resolveCheck resolved = Except.error e := by
  have hp : Perpee.is_private_ip s = true := by
    unfold Perpee.is_private_ip
    rw [h1]
  refine ⟨hp, ?_⟩
  have hsome : (resolved.find? (fun ip => Perpee.is_private_ip ip)).isSome := by
    rw [List.find?_isSome]
    exact ⟨s, h2, hp⟩
  unfold Perpee.resolveCheck
  cases hfind : resolved.find? (fun ip => Perpee.is_private_ip ip) with
  | none => rw [hfind] at hsome; simp at hsome
  | some ip => exact ⟨_, rfl⟩

/-- Witness for C9 at the concrete unparseable address "not-an-ip". -/
theorem c9_witness :
    Perpee.is_private_ip ("not-an-ip") = true ∧
      ∃ e, Perpee.resolveCheck (["not-an-ip"]) = Except.error e :=
  c9_unparseable_ip_is_private ("not-an-ip") (["not-an-ip"]) (by decide) (by decide)

/-- C4 counterexample: on the input "0.006" the code parses 0.006, rejects
it against the range check (0.006 < 0.01) and returns None; the claim's
order of operations (round to cents first, then range-check the rounded
value) would instead round to 0.01 and return it. -/
theorem c4_counterexample :
    Perpee.normalize_price ("0.006") = none ∧
      Perpee.normalizePriceClaimOrder ("0.006") = some (1 / 100) := by
  have h1 : Perpee.parsedPrice ("0.006") = some ((6 : ℚ) / 10 ^ (3 : ℕ)) := rfl
  have hlt : ((6 : ℚ) / 10 ^ (3 : ℕ)) < 1 / 100 ∨ (1000000 : ℚ) < 6 / 10 ^ (3 : ℕ) :=
    Or.inl (by norm_num)
  have hround : Perpee.roundCents ((6 : ℚ) / 10 ^ (3 : ℕ)) = 1 / 100 := by
    norm_num [Perpee.roundCents]
  constructor
  · unfold Perpee.normalize_price
    rw [h1]
    exact if_pos hlt
  · unfold Perpee.normalizePriceClaimOrder
    rw [h1]
    show (if 1 / 100 ≤ Perpee.roundCents ((6 : ℚ) / 10 ^ (3 : ℕ)) ∧
        Perpee.roundCents ((6 : ℚ) / 10 ^ (3 : ℕ)) ≤ 1000000 then _ else _) = _
    rw [hround, if_pos (by norm_num)]

/-- Claim C4 (amended): the price normalizer strips currency glyphs and
letters, strips commas, picks the first component of a single-dash range,
range-checks the PARSED (unrounded) value against [0.01, 1,000,000], and
returns that value rounded to cents exactly when the parsed value lies in
the range, `none` otherwise (including on any parse failure). -/
theorem c4_normalize_price_range_then_round (s : String) (q : ℚ) :
    Perpee.normalize_price s = some q ↔
      ∃ p, Perpee.parsedPrice s = some p ∧ 1 / 100 ≤ p ∧ p ≤ 1000000 ∧
        q = Perpee.roundCents p := by
  unfold Perpee.normalize_price
  cases h : Perpee.parsedPrice s with
  | none => simp
  | some p =>
      show (if p < 1 / 100 ∨ 1000000 < p then none else some (Perpee.roundCents p)) =
          some q ↔ _
      constructor
      · intro hq
        by_cases hr : p < 1 / 100 ∨ 1000000 < p
        · rw [if_pos hr] at hq
          exact absurd hq (by simp)
        · rw [if_neg hr] at hq
          push_neg at hr
          exact ⟨p, rfl, hr.1, hr.2, (Option.some.inj hq).symm⟩
      · rintro ⟨p', hp', h1, h2, hq⟩
        obtain rfl := Option.some.inj hp'
        rw [if_neg (by push_neg; exact ⟨h1, h2⟩), hq]

/-- Witness for C4: "$1,234.56" parses to 1234.56, which is in range and
is returned rounded (unchanged). -/
theorem c4_witness :
    Perpee.normalize_price ("$1,234.56") = some (123456 / 100) ∧
      Perpee.parsedPrice ("$1,234.56") = some (123456 / 100) := by
  have h1 : Perpee.parsedPrice ("$1,234.56") = some ((123456 : ℚ) / 10 ^ (2 : ℕ)) := rfl
  have h2 : (123456 : ℚ) / 10 ^ (2 : ℕ) = 123456 / 100 := by norm_num
  refine ⟨?_, by rw [h1, h2]⟩
  exact (c4_normalize_price_range_then_round ("$1,234.56") (123456 / 100)).mpr
    ⟨123456 / 100, by rw [h1, h2], by norm_num, by norm_num, by norm_num [Perpee.roundCents]⟩

/-- C1 counterexample: for an active ANY_CHANGE alert with
`min_change_threshold = 0`, in stock and `previous_price = current_price =
10`, the claimed equivalence fails: `|current − previous| = 0 ≥ 0` holds
but `evaluate_alert` is not triggered, because the code additionally
requires `current_price != previous_price`. -/
theorem c1_counterexample :
    ¬ (((Perpee.evaluate_alert c1ceAlert 10 (some 10) true none).triggered = true) ↔
        c1ceAlert.min_change_threshold ≤ |(10 : ℚ) - 10|) := by
  have h : (Perpee.evaluate_alert c1ceAlert 10 (some 10) true none).triggered = false := by
    simp [Perpee.evaluate_alert, c1ceAlert]
  rw [h]
  simp only [c1ceAlert]
  norm_num

/-- Claim C1 (amended): for every active ANY_CHANGE alert evaluated with
`in_stock = true` and a non-null previous price, `evaluate_alert` is
triggered iff the price actually changed AND `|current − previous| ≥
min_change_threshold` (for positive thresholds this is exactly the claimed
equivalence; the extra strict-change conjunct matters only for a zero
threshold). -/
theorem c1_any_change_triggered_iff (a : Perpee.Alert) (cur prev : ℚ)
    (w : Option Bool) (hact : a.is_active = true)
    (hty : a.alert_type = .ANY_CHANGE) :
    (Perpee.evaluate_alert a cur (some prev) true w).triggered = true ↔
      (¬ cur = prev ∧ a.min_change_threshold ≤ |cur - prev|) := by
  by_cases hne : cur = prev
  · subst hne
    simp [Perpee.evaluate_alert, hact, hty]
  · by_cases hlt : |cur - prev| < a.min_change_threshold
    · simp only [Perpee.evaluate_alert, hact, hty]
      simp [hne, hlt]
    · simp only [Perpee.evaluate_alert, hact, hty]
      simp [hne, hlt]
      linarith [not_lt.mp hlt]

/-- Witness for C1 at a concrete triggered instance: threshold 1, price
drop from 95 to 90. -/
theorem c1_witness :
    (Perpee.evaluate_alert
        { id := 2, alert_type := .ANY_CHANGE, target_value := none,
          min_change_threshold := 1, is_active := true }
        90 (some 95) true (some true)).triggered = true := by
  rw [c1_any_change_triggered_iff _ _ _ _ rfl rfl]
  constructor
  · norm_num
  · rw [show |(90 : ℚ) - 95| = 5 by norm_num]
    norm_num

/-- C2 counterexample: a SENT notification for the same `(product_id,
alert_id)` exists within the prior 24 hours whose stored payload price (95)
equals the proposed price within one cent — yet the notifier does NOT
suppress the dispatch: `check_duplicate` inspects only the MOST RECENT such
row (payload price 100), so the send succeeds and a new SENT row is
appended. -/
theorem c2_counterexample :
    (c2rowOld.status = .SENT ∧ c2rowOld.product_id = 1 ∧ c2rowOld.alert_id = some 1 ∧
      (21 : ℚ) - 24 ≤ c2rowOld.created_at ∧
      c2rowOld.payload_current_price = some 95 ∧ |(95 : ℚ) - 95| < 1 / 100) ∧
    (Perpee.send_price_alert c2store 21 c2product c2alert (some 100) true none).1.success
        = true ∧
    ¬ (Perpee.send_price_alert c2store 21 c2product c2alert (some 100) true
        none).1.error_message = some ("Duplicate notification prevented") ∧
    (Perpee.send_price_alert c2store 21 c2product c2alert (some 100) true none).2.length
        = c2store.length + 1 := by
  have hdup : Perpee.check_duplicate c2store 21 1 1 95 = false := by
    have h1 : |(100 : ℚ) - 95| < 1 / 100 ↔ False := by
      rw [show |(100 : ℚ) - 95| = 5 by norm_num]
      norm_num
    simp [Perpee.check_duplicate, Perpee.latestSentInWindow, c2store, c2rowOld, c2rowNew,
      h1]
    norm_num
  refine ⟨⟨rfl, rfl, rfl, by norm_num [c2rowOld], rfl, by norm_num⟩, ?_, ?_, ?_⟩ <;>
    simp [Perpee.send_price_alert, c2product, c2alert, hdup]

/-- Claim C2 (amended): if the MOST RECENT SENT notification for
`(product_id, alert_id)` within the prior 24 hours stores a payload
`current_price` within one cent of the proposed price, the notifier
suppresses the send: it returns `success = false` with error message
"Duplicate notification prevented" and leaves the notification table
unchanged (no new SENT row). -/
theorem c2_duplicate_suppressed (store : List Perpee.NotifRecord) (now : ℚ)
    (product : Perpee.ProductM) (alert : Perpee.Alert) (prev : Option ℚ)
    (email_error : Option String) (m : Perpee.NotifRecord) (lp : ℚ)
    (hm : Perpee.latestSentInWindow store (now - 24) product.id alert.id = some m)
    (hp : m.payload_current_price = some lp)
    (hc : |lp - product.current_price| < 1 / 100) :
    Perpee.send_price_alert store now product alert prev true email_error =
      ({ success := false,
         error_message := some ("Duplicate notification prevented") }, store) := by
  have hdup : Perpee.check_duplicate store now product.id alert.id
      product.current_price = true := by
    simp only [Perpee.check_duplicate]
    rw [hm]
    show (match m.payload_current_price with
      | none => false
      | some lp => if |lp - product.current_price| < 1 / 100 then true else false) = true
    rw [hp]
    show (if |lp - product.current_price| < 1 / 100 then true else false) = true
    rw [if_pos hc]
  unfold Perpee.send_price_alert
  rw [hdup]
  rfl

/-- Witness for C2: a single matching SENT row at the same price forces
suppression. -/
theorem c2_witness :
    Perpee.send_price_alert ([c2rowOld]) 21 c2product c2alert (some 100) true none =
      ({ success := false,
         error_message := some ("Duplicate notification prevented") }, [c2rowOld]) := by
  apply c2_duplicate_suppressed ([c2rowOld]) 21 c2product c2alert (some 100) none
    c2rowOld 95
  · simp [Perpee.latestSentInWindow, c2rowOld, c2product, c2alert]
    norm_num
  · rfl
  · show |(95 : ℚ) - 95| < 1 / 100
    norm_num

/-- C10: when the most recent SENT notification in the window has no
`current_price` in its payload, `check_duplicate` returns false and the
dispatch is not suppressed: no "Duplicate notification prevented" error,
and a new notification row is appended. -/
theorem c10_null_payload_price_not_suppressed (store : List Perpee.NotifRecord)
    (now : ℚ) (product : Perpee.ProductM) (alert : Perpee.Alert) (prev : Option ℚ)
    (m : Perpee.NotifRecord)
    (hm : Perpee.latestSentInWindow store (now - 24) product.id alert.id = some m)
    (hp : m.payload_current_price = none) :
    Perpee.check_duplicate store now product.id alert.id product.current_price
        = false ∧
      (Perpee.send_price_alert store now product alert prev true none).1.success
        = true ∧
      (Perpee.send_price_alert store now product alert prev true none).2
        = store ++
          [{ product_id := product.id, alert_id := some alert.id, status := .SENT,
             payload_current_price := some product.current_price,
             payload_previous_price := prev, created_at := now }] := by
  have hdup : Perpee.check_duplicate store now product.id alert.id
      product.current_price = false := by
    simp only [Perpee.check_duplicate]
    rw [hm]
    show (match m.payload_current_price with
      | none => false
      | some lp => if |lp - product.current_price| < 1 / 100 then true else false)
        = false
    rw [hp]
  refine ⟨hdup, ?_, ?_⟩ <;> simp [Perpee.send_price_alert, hdup]

/-- Witness for C10: a matching SENT row whose payload lacks
`current_price`. -/
theorem c10_witness :
    Perpee.check_duplicate
        ([{ product_id := 1, alert_id := some 1, status := .SENT,
            payload_current_price := none, created_at := 10 }]) 21 1 1 95 = false := by
  refine (c10_null_payload_price_not_suppressed _ 21 c2product c2alert none
    { product_id := 1, alert_id := some 1, status := .SENT,
      payload_current_price := none, created_at := 10 } ?_ rfl).1
  simp [Perpee.latestSentInWindow, c2product, c2alert]
  norm_num

/-- A string known non-empty has `isEmpty = false`. -/
theorem isEmptyFalseOfNe (s : String) (h : ¬ s = "") : s.isEmpty = false := by
  cases he : s.isEmpty
  · rfl
  · exact absurd ((String.isEmpty_iff s).mp he) h

/-- The CSS price loop only succeeds with a truthy (non-zero) price. -/
theorem cssFirstPriceNeZero (page : Perpee.Page) :
    ∀ (sels : List String) (p : ℚ), Perpee.cssFirstPrice page sels = some p → ¬ p = 0 := by
  intro sels
  induction sels with
  | nil => intro p h; simp [Perpee.cssFirstPrice] at h
  | cons sel rest ih =>
      intro p h
      unfold Perpee.cssFirstPrice at h
      cases hel : Perpee.cssLookup page sel with
      | none =>
          simp only [hel] at h
          exact ih p h
      | some el =>
          simp only [hel] at h
          cases hn : Perpee.normalize_price el.text with
          | none =>
              simp only [hn] at h
              exact ih p h
          | some q =>
              simp only [hn] at h
              by_cases hq : ¬ q = 0
              · rw [if_pos hq] at h
                obtain rfl := Option.some.inj h
                exact hq
              · rw [if_neg hq] at h
                exact ih p h

/-- The CSS name loop only succeeds with a truthy (non-empty) name. -/
theorem cssFirstNameNeEmpty (page : Perpee.Page) :
    ∀ (sels : List String) (nm : String),
      Perpee.cssFirstName page sels = some nm → ¬ nm = "" := by
  intro sels
  induction sels with
  | nil => intro nm h; simp [Perpee.cssFirstName] at h
  | cons sel rest ih =>
      intro nm h
      unfold Perpee.cssFirstName at h
      cases hel : Perpee.cssLookup page sel with
      | none =>
          simp only [hel] at h
          exact ih nm h
      | some el =>
          simp only [hel] at h
          by_cases hs : ¬ Perpee.sanitize_product_name el.text = ""
          · rw [if_pos hs] at h
            obtain rfl := Option.some.inj h
            exact hs
          · rw [if_neg hs] at h
            exact ih nm h

/-- The XPath price loop only succeeds with a truthy price. -/
theorem xpathFirstPriceNeZero (page : Perpee.Page) :
    ∀ (xs : List String) (p : ℚ), Perpee.xpathFirstPrice page xs = some p → ¬ p = 0 := by
  intro xs
  induction xs with
  | nil => intro p h; simp [Perpee.xpathFirstPrice] at h
  | cons x rest ih =>
      intro p h
      unfold Perpee.xpathFirstPrice at h
      cases hel : Perpee.xpathLookup page x with
      | none =>
          simp only [hel] at h
          exact ih p h
      | some t =>
          simp only [hel] at h
          cases hn : Perpee.normalize_price t with
          | none =>
              simp only [hn] at h
              exact ih p h
          | some q =>
              simp only [hn] at h
              by_cases hq : ¬ q = 0
              · rw [if_pos hq] at h
                obtain rfl := Option.some.inj h
                exact hq
              · rw [if_neg hq] at h
                exact ih p h

/-- The XPath name loop only succeeds with a truthy name. -/
theorem xpathFirstNameNeEmpty (page : Perpee.Page) :
    ∀ (xs : List String) (nm : String),
      Perpee.xpathFirstName page xs = some nm → ¬ nm = "" := by
  intro xs
  induction xs with
  | nil => intro nm h; simp [Perpee.xpathFirstName] at h
  | cons x rest ih =>
      intro nm h
      unfold Perpee.xpathFirstName at h
      cases hel : Perpee.xpathLookup page x with
      | none =>
          simp only [hel] at h
          exact ih nm h
      | some t =>
          simp only [hel] at h
          by_cases hs : ¬ Perpee.sanitize_product_name t = ""
          · rw [if_pos hs] at h
            obtain rfl := Option.some.inj h
            exact hs
          · rw [if_neg hs] at h
            exact ih nm h

/-- C3 counterexample: on a page whose JSON-LD script holds a Product
without offers, `JsonLdStrategy.extract` does NOT return None — it
returns an incomplete `ProductData` (name present, price missing), because
`_parse_product` returns the assembled result in both arms of its final
conditional. -/
theorem c3_counterexample :
    (Perpee.jsonldExtract [some c3ceJson]).isSome = true ∧
      (Perpee.jsonldExtract [some c3ceJson]).all Perpee.isCompleteTruthy = false := by
  constructor <;> decide

/-- Claim C3 (amended): the waterfall attempts JSON-LD, CSS, XPath, LLM in
that fixed order and returns the first result that is complete (truthy
name and price), without a later strategy overriding an earlier complete
one; the CSS and XPath strategies return None whenever they cannot
produce both a name and a price, but the JSON-LD strategy may return an
incomplete ProductData (see the counterexample), which the waterfall then
treats like a failure. -/
theorem c3_waterfall_first_complete (page : Perpee.Page)
    (selectors : Option Perpee.Selectors) (llm_client : Bool) :
    Perpee.engineExtract page selectors llm_client =
        Perpee.firstComplete (Perpee.strategyOutputs page selectors llm_client) ∧
      (Perpee.cssExtract page selectors).all Perpee.isCompleteTruthy = true ∧
      (Perpee.xpathExtract page selectors).all Perpee.isCompleteTruthy = true := by
  refine ⟨?_, ?_, ?_⟩
  · cases llm_client <;>
    · simp only [Perpee.engineExtract, Perpee.firstComplete, Perpee.strategyOutputs,
        List.findSome?_cons, List.findSome?_nil]
      cases Perpee.completeStep (Perpee.jsonldExtract page.scripts) with
      | some r => rfl
      | none =>
          cases Perpee.completeStep (Perpee.cssExtract page selectors) with
          | some r => rfl
          | none =>
              cases Perpee.completeStep (Perpee.xpathExtract page selectors) with
              | some r => rfl
              | none => rfl
  · cases selectors with
    | none => rfl
    | some sels =>
        simp only [Perpee.cssExtract]
        cases hn : Perpee.cssFirstName page sels.name with
        | none => cases hp : Perpee.cssFirstPrice page sels.price <;> rfl
        | some nm =>
            cases hp : Perpee.cssFirstPrice page sels.price with
            | none => rfl
            | some p =>
                have h1 := cssFirstNameNeEmpty page sels.name nm hn
                have h2 := cssFirstPriceNeZero page sels.price p hp
                simp [Perpee.isCompleteTruthy, h2, isEmptyFalseOfNe nm h1]
  · cases selectors with
    | none => rfl
    | some sels =>
        cases hx : sels.xpath with
        | none => simp [Perpee.xpathExtract, hx]
        | some xsel =>
            cases hok : page.xpathOk with
            | false => simp [Perpee.xpathExtract, hx, hok]
            | true =>
                cases hn : Perpee.xpathFirstName page xsel.name with
                | none => simp [Perpee.xpathExtract, hx, hok, hn]
                | some nm =>
                    cases hp : Perpee.xpathFirstPrice page xsel.price with
                    | none => simp [Perpee.xpathExtract, hx, hok, hn, hp]
                    | some p =>
                        have h1 := xpathFirstNameNeEmpty page xsel.name nm hn
                        have h2 := xpathFirstPriceNeZero page xsel.price p hp
                        simp [Perpee.xpathExtract, hx, hok, hn, hp,
                          Perpee.isCompleteTruthy, h2, isEmptyFalseOfNe nm h1]

/-- Re-filtering a 60-second window at a later time collapses to the later
filter. -/
theorem filterWindowFilter (l : List ℚ) (a b : ℚ) (hab : a ≤ b) :
    (l.filter (fun t => decide (a - 60 < t))).filter (fun t => decide (b - 60 < t)) =
      l.filter (fun t => decide (b - 60 < t)) := by
  rw [List.filter_filter]
  apply List.filter_congr
  intro x _
  by_cases h : b - 60 < x
  · simp only [decide_eq_true h, Bool.true_and]
    exact decide_eq_true (by linarith)
  · simp [h]

/-- Filtering by a pointwise-stronger predicate yields at most as many
elements. -/
theorem lengthFilterLe {α : Type} (l : List α) (p q : α → Bool)
    (h : ∀ x ∈ l, p x = true → q x = true) :
    (l.filter p).length ≤ (l.filter q).length := by
  have h1 : l.filter p = (l.filter q).filter p := by
    rw [List.filter_filter]
    apply List.filter_congr
    intro x hx
    cases hp : p x with
    | true => simp [h x hx hp]
    | false => simp
  rw [h1]
  exact (List.filter_sublist _).length_le

/-- A filter that drops some present element is strictly shorter than the
list. -/
theorem lengthFilterLt {α : Type} (l : List α) (p : α → Bool) (a : α)
    (ha : a ∈ l) (hpa : p a = false) :
    (l.filter p).length < l.length := by
  induction l with
  | nil => cases ha
  | cons x xs ih =>
      rw [List.filter_cons]
      rcases List.mem_cons.mp ha with rfl | hmem
      · rw [hpa]
        simp only [Bool.false_eq_true, if_false, List.length_cons]
        exact Nat.lt_succ_of_le (List.filter_sublist xs).length_le
      · cases hp : p x with
        | true =>
            simp only [if_true, List.length_cons]
            exact Nat.succ_lt_succ (ih hmem)
        | false =>
            simp only [Bool.false_eq_true, if_false, List.length_cons]
            exact Nat.lt_succ_of_lt (ih hmem)

/-- Times recorded for a host are bounded by any bound on the history. -/
theorem histTimesLe (d : String) (hist : List (String × ℚ)) (b : ℚ)
    (h : ∀ p ∈ hist, p.2 ≤ b) : ∀ t ∈ Perpee.histTimes d hist, t ≤ b := by
  intro t ht
  simp only [Perpee.histTimes, List.mem_map, List.mem_filter] at ht
  obtain ⟨p, ⟨hp, _⟩, rfl⟩ := ht
  exact h p hp

/-- Appending one admission for `d` extends its time list by that time. -/
theorem histTimesAppendSelf (d : String) (hist : List (String × ℚ)) (c : ℚ) :
    Perpee.histTimes d (hist ++ [(d, c)]) = Perpee.histTimes d hist ++ [c] := by
  simp [Perpee.histTimes, List.filter_append]

/-- Appending an admission for another host leaves a host's times
unchanged. -/
theorem histTimesAppendOther (d d0 : String) (hist : List (String × ℚ))
    (c : ℚ) (hne : ¬ d = d0) :
    Perpee.histTimes d (hist ++ [(d0, c)]) = Perpee.histTimes d hist := by
  have : (d0 == d) = false := by
    simp only [beq_eq_false_iff_ne, ne_eq]
    intro h
    exact hne h.symm
  simp [Perpee.histTimes, List.filter_append, this]

/-- `waitTime` never returns a negative wait. -/
theorem waitTimeNonneg (st : Perpee.RateLimitState) (now : ℚ) :
    0 ≤ (Perpee.waitTime st now).2 := by
  unfold Perpee.waitTime
  by_cases h : (Perpee.cleanOld st now).requests.length < (Perpee.cleanOld st now).limit
  · rw [if_pos h]
  · rw [if_neg h]
    cases (Perpee.cleanOld st now).requests.min? with
    | none => exact le_refl 0
    | some oldest => exact le_max_left 0 _

/-- The first component of `wait_time` is always the cleaned state. -/
theorem waitTimeFst (st : Perpee.RateLimitState) (now : ℚ) :
    (Perpee.waitTime st now).1 = Perpee.cleanOld st now := by
  unfold Perpee.waitTime
  by_cases h : (Perpee.cleanOld st now).requests.length < (Perpee.cleanOld st now).limit
  · rw [if_pos h]
  · rw [if_neg h]
    cases (Perpee.cleanOld st now).requests.min? <;> rfl

/-- Cleaning a state whose request list is a window filter of the host
history re-filters it at the current time. -/
theorem cleanOldEq (st : Perpee.RateLimitState) (now s : ℚ) (d0 : String)
    (hist : List (String × ℚ)) (hwin : st.window_seconds = 60) (hs : s ≤ now)
    (hreq : st.requests =
      (Perpee.histTimes d0 hist).filter (fun t => decide (s - 60 < t))) :
    (Perpee.cleanOld st now).requests =
      (Perpee.histTimes d0 hist).filter (fun t => decide (now - 60 < t)) := by
  simp only [Perpee.cleanOld, hreq, hwin]
  exact filterWindowFilter _ s now hs

/-- When every recorded time is in the past, the window filter at `now`
counts exactly the admissions of the last 60 seconds. -/
theorem cleanedLenCount (hist : List (String × ℚ)) (d0 : String) (now : ℚ)
    (h : ∀ t ∈ Perpee.histTimes d0 hist, t ≤ now) :
    ((Perpee.histTimes d0 hist).filter (fun t => decide (now - 60 < t))).length =
      Perpee.countWindow hist d0 now := by
  unfold Perpee.countWindow
  congr 1
  apply List.filter_congr
  intro x hx
  have hle := h x hx
  simp [decide_eq_true hle]

/-- Core admission-count argument: an admission at `c ≥ now + wait` keeps
every 60-second window that contains it within the per-host limit. -/
theorem windowCountStep (hist : List (String × ℚ)) (d0 : String)
    (clock now T c : ℚ) (st0 : Perpee.RateLimitState)
    (hI3 : ∀ p ∈ hist, p.2 ≤ clock) (hnow : clock ≤ now)
    (hwin : st0.window_seconds = 60) (hlim1 : 1 ≤ st0.limit)
    (hreq : ∃ s, s ≤ clock ∧ st0.requests =
      (Perpee.histTimes d0 hist).filter (fun t => decide (s - 60 < t)))
    (hI4 : ∀ T, Perpee.countWindow hist d0 T ≤ st0.limit)
    (hc : now + (Perpee.waitTime st0 now).2 ≤ c)
    (hTc : T - 60 < c) (hcT : c ≤ T) :
    Perpee.countWindow hist d0 T + 1 ≤ st0.limit := by
  obtain ⟨s, hs, hreq⟩ := hreq
  have htle : ∀ t ∈ Perpee.histTimes d0 hist, t ≤ now := fun t ht =>
    le_trans (histTimesLe d0 hist clock hI3 t ht) hnow
  have hclean : (Perpee.cleanOld st0 now).requests =
      (Perpee.histTimes d0 hist).filter (fun t => decide (now - 60 < t)) :=
    cleanOldEq st0 now s d0 hist hwin (le_trans hs hnow) hreq
  have hsw0 : 0 ≤ (Perpee.waitTime st0 now).2 := waitTimeNonneg st0 now
  have hnowc : now ≤ c := by linarith
  have hcount_le : Perpee.countWindow hist d0 T ≤
      ((Perpee.histTimes d0 hist).filter (fun t => decide (now - 60 < t))).length := by
    unfold Perpee.countWindow
    apply lengthFilterLe
    intro x _ hp
    simp only [Bool.and_eq_true, decide_eq_true_eq] at hp
    exact decide_eq_true (by linarith [hp.1, hp.2])
  have hlimeq : (Perpee.cleanOld st0 now).limit = st0.limit := rfl
  by_cases hk : (Perpee.cleanOld st0 now).requests.length <
      (Perpee.cleanOld st0 now).limit
  · rw [hclean, hlimeq] at hk
    omega
  · push_neg at hk
    rw [hlimeq] at hk
    have hk1 : 1 ≤ (Perpee.cleanOld st0 now).requests.length := le_trans hlim1 hk
    cases hmin : (Perpee.cleanOld st0 now).requests.min? with
    | none =>
        rw [List.min?_eq_none_iff] at hmin
        rw [hmin] at hk1
        simp at hk1
    | some oldest =>
        have hmem : oldest ∈ (Perpee.cleanOld st0 now).requests :=
          List.min?_mem (fun a b => min_choice a b) hmin
        have hsw : (Perpee.waitTime st0 now).2 =
            max 0 (oldest + st0.window_seconds - now) := by
          unfold Perpee.waitTime
          rw [if_neg (by rw [hlimeq]; omega), hmin]
          rfl
        have hcold : oldest + 60 ≤ c := by
          have h1 : oldest + 60 - now ≤ (Perpee.waitTime st0 now).2 := by
            rw [hsw, hwin]
            exact le_max_right 0 _
          linarith
        have hcount_le2 : Perpee.countWindow hist d0 T ≤
            ((Perpee.histTimes d0 hist).filter
              (fun t => decide (oldest < t) && decide (now - 60 < t))).length := by
          unfold Perpee.countWindow
          apply lengthFilterLe
          intro x _ hp
          simp only [Bool.and_eq_true, decide_eq_true_eq] at hp ⊢
          exact ⟨by linarith [hp.1], by linarith [hp.1]⟩
        have heq2 : (Perpee.histTimes d0 hist).filter
              (fun t => decide (oldest < t) && decide (now - 60 < t)) =
            ((Perpee.cleanOld st0 now).requests).filter
              (fun t => decide (oldest < t)) := by
          rw [hclean, List.filter_filter]
        have hlt : (((Perpee.cleanOld st0 now).requests).filter
              (fun t => decide (oldest < t))).length <
            (Perpee.cleanOld st0 now).requests.length :=
          lengthFilterLt _ _ oldest hmem (by simp)
        have hkle : (Perpee.cleanOld st0 now).requests.length ≤ st0.limit := by
          rw [hclean, cleanedLenCount hist d0 now htle]
          exact hI4 now
        rw [heq2] at hcount_le2
        omega

/-- `acquire`, zeta-expanded into its two branches. -/
theorem acquireEq (rl : Perpee.RateLimiter) (d0 : String) (now : ℚ) :
    Perpee.acquire rl d0 now =
      if 30 < max (Perpee.waitTime rl.globalState now).2
          (Perpee.waitTime (Perpee.getStore rl d0) now).2 then
        (Perpee.setStore { rl with globalState := (Perpee.waitTime rl.globalState now).1 }
          d0 (Perpee.waitTime (Perpee.getStore rl d0) now).1, none)
      else
        (Perpee.setStore
          { rl with globalState := (Perpee.recordRequest
              (Perpee.waitTime rl.globalState now).1
              (now + max (Perpee.waitTime rl.globalState now).2
                (Perpee.waitTime (Perpee.getStore rl d0) now).2)) } d0
          (Perpee.recordRequest (Perpee.waitTime (Perpee.getStore rl d0) now).1
            (now + max (Perpee.waitTime rl.globalState now).2
              (Perpee.waitTime (Perpee.getStore rl d0) now).2)),
          some (now + max (Perpee.waitTime rl.globalState now).2
            (Perpee.waitTime (Perpee.getStore rl d0) now).2)) := rfl

/-- Reading back the store just written. -/
theorem getSetSame (rl : Perpee.RateLimiter) (d : String)
    (st : Perpee.RateLimitState) :
    Perpee.getStore (Perpee.setStore rl d st) d = st := by
  simp [Perpee.getStore, Perpee.setStore]

/-- Reading a different store after a write. -/
theorem getSetOther (rl : Perpee.RateLimiter) (d d0 : String)
    (st : Perpee.RateLimitState) (h : ¬ d = d0) :
    Perpee.getStore (Perpee.setStore rl d0 st) d = Perpee.getStore rl d := by
  simp [Perpee.getStore, Perpee.setStore, h]

/-- Per-store reads ignore the global window. -/
theorem getIgnoresGlobal (rl : Perpee.RateLimiter)
    (g : Perpee.RateLimitState) (d : String) :
    Perpee.getStore { rl with globalState := g } d = Perpee.getStore rl d := rfl

/-- A successful `acquire` admits at or after the call time and preserves
the limiter invariant with the admission appended to the history; limits
are untouched. -/
theorem acquire_some_inv (rl : Perpee.RateLimiter) (clock now : ℚ)
    (hist : List (String × ℚ)) (d0 : String) (rl' : Perpee.RateLimiter)
    (c : ℚ) (hInv : Perpee.LimInv rl clock hist) (hnow : clock ≤ now)
    (hacq : Perpee.acquire rl d0 now = (rl', some c)) :
    now ≤ c ∧ Perpee.LimInv rl' c (hist ++ [(d0, c)]) ∧
      ∀ d, (Perpee.getStore rl' d).limit = (Perpee.getStore rl d).limit := by
  obtain ⟨hI3, hStores⟩ := hInv
  obtain ⟨hwin, hlim1, ⟨s, hs, hreq⟩, hI4⟩ := hStores d0
  rw [acquireEq] at hacq
  set W := max (Perpee.waitTime rl.globalState now).2
      (Perpee.waitTime (Perpee.getStore rl d0) now).2 with hW
  have hW0 : 0 ≤ W := by
    rw [hW]
    exact le_trans (waitTimeNonneg rl.globalState now) (le_max_left _ _)
  have hWsw : (Perpee.waitTime (Perpee.getStore rl d0) now).2 ≤ W := by
    rw [hW]
    exact le_max_right _ _
  have hswfst : (Perpee.waitTime (Perpee.getStore rl d0) now).1 =
      Perpee.cleanOld (Perpee.getStore rl d0) now := waitTimeFst _ _
  by_cases h30 : 30 < W
  · rw [if_pos h30] at hacq
    exact absurd (congrArg Prod.snd hacq) (by simp)
  · rw [if_neg h30] at hacq
    injection hacq with hB hsome
    injection hsome with hc
    subst hB
    subst hc
    refine ⟨by linarith, ⟨?_, ?_⟩, ?_⟩
    · intro p hp
      rcases List.mem_append.mp hp with h | h
      · exact le_trans (hI3 p h) (by linarith)
      · rw [List.mem_singleton] at h
        rw [h]
    · intro d
      by_cases hd : d = d0
      · subst hd
        rw [getSetSame]
        refine ⟨?_, ?_, ⟨now, by linarith, ?_⟩, ?_⟩
        · show (Perpee.waitTime (Perpee.getStore rl d) now).1.window_seconds = 60
          rw [hswfst]
          exact hwin
        · show 1 ≤ (Perpee.waitTime (Perpee.getStore rl d) now).1.limit
          rw [hswfst]
          exact hlim1
        · show (Perpee.waitTime (Perpee.getStore rl d) now).1.requests ++ [now + W] = _
          rw [hswfst,
            cleanOldEq (Perpee.getStore rl d) now s d hist hwin (le_trans hs hnow) hreq,
            histTimesAppendSelf, List.filter_append]
          have hdec : decide (now - 60 < now + W) = true := decide_eq_true (by linarith)
          simp [List.filter_cons, hdec]
        · intro T
          have hlimrec : (Perpee.recordRequest
              (Perpee.waitTime (Perpee.getStore rl d) now).1 (now + W)).limit =
              (Perpee.getStore rl d).limit := by
            rw [hswfst]
            rfl
          rw [hlimrec]
          unfold Perpee.countWindow
          rw [histTimesAppendSelf, List.filter_append, List.length_append]
          by_cases hin : T - 60 < now + W ∧ now + W ≤ T
          · have h1 : (List.filter
                (fun t => decide (T - 60 < t) && decide (t ≤ T)) [now + W]).length = 1 := by
              simp [List.filter_cons, hin.1, hin.2]
            rw [h1]
            have hstep := windowCountStep hist d clock now T (now + W)
              (Perpee.getStore rl d) hI3 hnow hwin hlim1 ⟨s, hs, hreq⟩ hI4
              (by linarith) hin.1 hin.2
            unfold Perpee.countWindow at hstep
            omega
          · have hb : ((fun t => decide (T - 60 < t) && decide (t ≤ T)) (now + W)) = false := by
              by_cases h1 : T - 60 < now + W
              · have h2 : ¬ now + W ≤ T := fun h2 => hin ⟨h1, h2⟩
                simp [h1, h2]
              · simp [h1]
            have h0 : (List.filter
                (fun t => decide (T - 60 < t) && decide (t ≤ T)) [now + W]).length = 0 := by
              simp [List.filter_cons, hb]
            rw [h0]
            have := hI4 T
            unfold Perpee.countWindow at this
            omega
      · rw [getSetOther _ _ _ _ hd, getIgnoresGlobal]
        obtain ⟨hwin', hlim1', ⟨s', hs', hreq'⟩, hI4'⟩ := hStores d
        refine ⟨hwin', hlim1', ⟨s', le_trans hs' (by linarith), ?_⟩, ?_⟩
        · rw [histTimesAppendOther d d0 hist _ hd]
          exact hreq'
        · intro T
          unfold Perpee.countWindow
          rw [histTimesAppendOther d d0 hist _ hd]
          have := hI4' T
          unfold Perpee.countWindow at this
          exact this
    · intro d
      by_cases hd : d = d0
      · subst hd
        rw [getSetSame]
        show (Perpee.waitTime (Perpee.getStore rl d) now).1.limit = _
        rw [hswfst]
        rfl
      · rw [getSetOther _ _ _ _ hd, getIgnoresGlobal]

/-- A rejected `acquire` (rate-limit error) only cleans the windows: the
invariant survives with an unchanged history, and limits are untouched. -/
theorem acquire_none_inv (rl : Perpee.RateLimiter) (clock now : ℚ)
    (hist : List (String × ℚ)) (d0 : String) (rl' : Perpee.RateLimiter)
    (hInv : Perpee.LimInv rl clock hist) (hnow : clock ≤ now)
    (hacq : Perpee.acquire rl d0 now = (rl', none)) :
    Perpee.LimInv rl' now hist ∧
      ∀ d, (Perpee.getStore rl' d).limit = (Perpee.getStore rl d).limit := by
  obtain ⟨hI3, hStores⟩ := hInv
  obtain ⟨hwin, hlim1, ⟨s, hs, hreq⟩, hI4⟩ := hStores d0
  rw [acquireEq] at hacq
  set W := max (Perpee.waitTime rl.globalState now).2
      (Perpee.waitTime (Perpee.getStore rl d0) now).2 with hW
  have hswfst : (Perpee.waitTime (Perpee.getStore rl d0) now).1 =
      Perpee.cleanOld (Perpee.getStore rl d0) now := waitTimeFst _ _
  by_cases h30 : 30 < W
  · rw [if_pos h30] at hacq
    injection hacq with hB _
    subst hB
    refine ⟨⟨fun p hp => le_trans (hI3 p hp) hnow, ?_⟩, ?_⟩
    · intro d
      by_cases hd : d = d0
      · subst hd
        rw [getSetSame]
        refine ⟨?_, ?_, ⟨now, le_refl now, ?_⟩, ?_⟩
        · show (Perpee.waitTime (Perpee.getStore rl d) now).1.window_seconds = 60
          rw [hswfst]
          exact hwin
        · show 1 ≤ (Perpee.waitTime (Perpee.getStore rl d) now).1.limit
          rw [hswfst]
          exact hlim1
        · rw [hswfst]
          exact cleanOldEq (Perpee.getStore rl d) now s d hist hwin
            (le_trans hs hnow) hreq
        · intro T
          have hlimeq : (Perpee.waitTime (Perpee.getStore rl d) now).1.limit =
              (Perpee.getStore rl d).limit := by
            rw [hswfst]
            rfl
          rw [hlimeq]
          exact hI4 T
      · rw [getSetOther _ _ _ _ hd, getIgnoresGlobal]
        obtain ⟨hwin', hlim1', ⟨s', hs', hreq'⟩, hI4'⟩ := hStores d
        exact ⟨hwin', hlim1', ⟨s', le_trans hs' hnow, hreq'⟩, hI4'⟩
    · intro d
      by_cases hd : d = d0
      · subst hd
        rw [getSetSame]
        show (Perpee.waitTime (Perpee.getStore rl d) now).1.limit = _
        rw [hswfst]
        rfl
      · rw [getSetOther _ _ _ _ hd, getIgnoresGlobal]
  · rw [if_neg h30] at hacq
    exact absurd (congrArg Prod.snd hacq) (by simp)

set_option maxHeartbeats 1000000 in
/-- Running any request sequence from an invariant-satisfying limiter
yields a limiter satisfying the invariant for the extended admission
history at some final clock; per-store limits never change. -/
theorem runLimiter_inv (reqs : List (String × ℚ)) :
    ∀ (rl : Perpee.RateLimiter) (clock : ℚ) (hist : List (String × ℚ)),
      Perpee.LimInv rl clock hist →
      ∃ clock', Perpee.LimInv (Perpee.runLimiter rl clock reqs).1 clock'
          (hist ++ (Perpee.runLimiter rl clock reqs).2) ∧
        ∀ d, (Perpee.getStore (Perpee.runLimiter rl clock reqs).1 d).limit =
          (Perpee.getStore rl d).limit := by
  induction reqs with
  | nil =>
      intro rl clock hist hInv
      refine ⟨clock, ?_, ?_⟩
      · show Perpee.LimInv rl clock (hist ++ [])
        rw [List.append_nil]
        exact hInv
      · intro d
        rfl
  | cons r rest ih =>
      intro rl clock hist hInv
      obtain ⟨d, arrival⟩ := r
      have hnow : clock ≤ max clock arrival := le_max_left _ _
      cases hacq : Perpee.acquire rl d (max clock arrival) with
      | mk rl2 oc =>
        cases oc with
        | some c =>
            obtain ⟨hnc, hInv2, hlim2⟩ :=
              acquire_some_inv rl clock (max clock arrival) hist d rl2 c hInv hnow hacq
            obtain ⟨clock', hInv3, hlim3⟩ := ih rl2 c (hist ++ [(d, c)]) hInv2
            refine ⟨clock', ?_, ?_⟩
            · simp only [Perpee.runLimiter, hacq]
              rw [show hist ++ (d, c) :: (Perpee.runLimiter rl2 c rest).2 =
                  (hist ++ [(d, c)]) ++ (Perpee.runLimiter rl2 c rest).2 by simp]
              exact hInv3
            · intro dd
              simp only [Perpee.runLimiter, hacq]
              rw [hlim3 dd, hlim2 dd]
        | none =>
            obtain ⟨hInv2, hlim2⟩ :=
              acquire_none_inv rl clock (max clock arrival) hist d rl2 hInv hnow hacq
            obtain ⟨clock', hInv3, hlim3⟩ := ih rl2 (max clock arrival) hist hInv2
            refine ⟨clock', ?_, ?_⟩
            · simp only [Perpee.runLimiter, hacq]
              exact hInv3
            · intro dd
              simp only [Perpee.runLimiter, hacq]
              rw [hlim3 dd, hlim2 dd]

/-- Folding `set_store_limit` over a configuration never touches request
lists or windows, and each resulting limit is either inherited or one of
the configured values. -/
theorem foldStores (cfg : List (String × ℕ)) :
    ∀ (rl : Perpee.RateLimiter) (d : String),
      (Perpee.getStore (cfg.foldl
        (fun rl p => Perpee.set_store_limit rl p.1 p.2) rl) d).requests =
        (Perpee.getStore rl d).requests ∧
      (Perpee.getStore (cfg.foldl
        (fun rl p => Perpee.set_store_limit rl p.1 p.2) rl) d).window_seconds =
        (Perpee.getStore rl d).window_seconds ∧
      ((Perpee.getStore (cfg.foldl
          (fun rl p => Perpee.set_store_limit rl p.1 p.2) rl) d).limit =
          (Perpee.getStore rl d).limit ∨
        ∃ p ∈ cfg, (Perpee.getStore (cfg.foldl
          (fun rl p => Perpee.set_store_limit rl p.1 p.2) rl) d).limit = p.2) := by
  induction cfg with
  | nil =>
      intro rl d
      exact ⟨rfl, rfl, Or.inl rfl⟩
  | cons q rest ih =>
      intro rl d
      simp only [List.foldl_cons]
      obtain ⟨h1, h2, h3⟩ := ih (Perpee.set_store_limit rl q.1 q.2) d
      by_cases hd : d = q.1
      · have hg : Perpee.getStore (Perpee.set_store_limit rl q.1 q.2) d =
            { Perpee.getStore rl d with limit := q.2 } := by
          rw [hd]
          exact getSetSame rl q.1 _
        refine ⟨by rw [h1, hg], by rw [h2, hg], Or.inr ?_⟩
        rcases h3 with h3 | ⟨p, hp, hp2⟩
        · exact ⟨q, List.mem_cons_self q rest, by rw [h3, hg]⟩
        · exact ⟨p, List.mem_cons_of_mem q hp, hp2⟩
      · have hg : Perpee.getStore (Perpee.set_store_limit rl q.1 q.2) d =
            Perpee.getStore rl d := getSetOther rl d q.1 _ hd
        refine ⟨by rw [h1, hg], by rw [h2, hg], ?_⟩
        rcases h3 with h3 | ⟨p, hp, hp2⟩
        · exact Or.inl (by rw [h3, hg])
        · exact Or.inr ⟨p, List.mem_cons_of_mem q hp, hp2⟩

/-- The freshly configured limiter satisfies the invariant for the empty
history whenever every configured per-store limit is at least 1. -/
theorem initLimiter_inv (g : ℕ) (cfg : List (String × ℕ))
    (hpos : ∀ p ∈ cfg, 1 ≤ p.2) (clock0 : ℚ) :
    Perpee.LimInv (Perpee.initLimiter g cfg) clock0 [] := by
  have hi : Perpee.initLimiter g cfg = cfg.foldl
      (fun rl p => Perpee.set_store_limit rl p.1 p.2)
      { globalState := { limit := g } } := rfl
  constructor
  · intro p hp
    cases hp
  · intro d
    obtain ⟨h1, h2, h3⟩ := foldStores cfg { globalState := { limit := g } } d
    refine ⟨?_, ?_, ⟨clock0, le_refl clock0, ?_⟩, ?_⟩
    · rw [hi, h2]
      rfl
    · rw [hi]
      rcases h3 with h3 | ⟨p, hp, hp2⟩
      · rw [h3]
        show 1 ≤ (10 : ℕ)
        omega
      · rw [hp2]
        exact hpos p hp
    · rw [hi, h1]
      rfl
    · intro T
      exact Nat.zero_le _

/-- C5: for every host `d` and every serialized sequence of `acquire`
calls on a rate limiter freshly configured by `set_store_limit` with
per-store limits of at least 1, the number of admitted requests for `d`
in any 60-second window `(T-60, T]` never exceeds the per-host limit in
effect for `d` (the default 10 unless overridden); each `acquire` either
records its request at the admission time after the computed wait or
raises a rate-limit error and records nothing. -/
theorem c5_rate_limiter_window_bound (g : ℕ) (cfg : List (String × ℕ))
    (clock0 : ℚ) (reqs : List (String × ℚ)) (d : String) (T : ℚ)
    (hpos : ∀ p ∈ cfg, 1 ≤ p.2) :
    Perpee.countWindow
        (Perpee.runLimiter (Perpee.initLimiter g cfg) clock0 reqs).2 d T ≤
      (Perpee.getStore (Perpee.initLimiter g cfg) d).limit := by
  obtain ⟨clock', hInv, hlim⟩ := runLimiter_inv reqs (Perpee.initLimiter g cfg)
    clock0 [] (initLimiter_inv g cfg hpos clock0)
  have h := (hInv.2 d).2.2.2 T
  rw [hlim d, List.nil_append] at h
  exact h

/-- C5 witness: a configured per-store limit of 5 for one host, two
back-to-back requests, and the window ending at 60 seconds. -/
theorem c5_witness :
    (∀ p ∈ [(("amazon.ca" : String), (5 : ℕ))], 1 ≤ p.2) ∧
    Perpee.countWindow
        (Perpee.runLimiter (Perpee.initLimiter 10 [("amazon.ca", 5)]) 0
          [("amazon.ca", 0), ("amazon.ca", 1)]).2 "amazon.ca" 60 ≤
      (Perpee.getStore
        (Perpee.initLimiter 10 [("amazon.ca", 5)]) "amazon.ca").limit :=
  ⟨by decide, c5_rate_limiter_window_bound 10 [("amazon.ca", 5)] 0
    [("amazon.ca", 0), ("amazon.ca", 1)] "amazon.ca" 60 (by decide)⟩

/-- Values produced by `mkRange` stay below the field's upper bound. -/
theorem mkRange_le (lo hi a b s : ℕ) (l : List ℕ)
    (h : Perpee.mkRange lo hi a b s = some l) : ∀ v ∈ l, v ≤ hi := by
  unfold Perpee.mkRange at h
  by_cases hc : lo ≤ a ∧ a ≤ b ∧ b ≤ hi ∧ 1 ≤ s
  · rw [if_pos hc] at h
    injection h with h
    subst h
    intro v hv
    unfold Perpee.rangeByStep at hv
    rw [List.mem_filter] at hv
    have hm := hv.1
    rw [List.mem_range'_1] at hm
    omega
  · rw [if_neg hc] at h
    exact absurd h (by simp)

/-- Values produced by `parseItem` stay below the field's upper bound. -/
theorem parseItem_le (lo hi : ℕ) (cs : List Char) (l : List ℕ)
    (h : Perpee.parseItem lo hi cs = some l) : ∀ v ∈ l, v ≤ hi := by
  unfold Perpee.parseItem at h
  split at h
  · split at h
    · exact mkRange_le _ _ _ _ _ _ h
    · exact absurd h (by simp)
  · split at h
    · exact mkRange_le _ _ _ _ _ _ h
    · exact absurd h (by simp)
  · exact absurd h (by simp)

/-- Values produced by `parseField` stay below the field's upper bound. -/
theorem parseField_le (lo hi : ℕ) (cs : List Char) (l : List ℕ)
    (h : Perpee.parseField lo hi cs = some l) : ∀ v ∈ l, v ≤ hi := by
  unfold Perpee.parseField at h
  revert l
  induction Perpee.splitOnChar ',' cs [] with
  | nil =>
      intro l h
      injection h with h
      subst h
      intro v hv
      cases hv
  | cons it rest ih =>
      intro l h
      rw [List.foldr_cons] at h
      split at h
      · rename_i l1 r heq1 heq2
        injection h with h
        subst h
        intro v hv
        rcases List.mem_append.mp hv with hv | hv
        · exact parseItem_le lo hi it l1 heq1 v hv
        · exact ih r heq2 v hv
      · exact absurd h (by simp)

/-- A parsed schedule's firing minutes-of-day are at most 23:59. -/
theorem parseCron_tod_le (e : String) (c : Perpee.CronSchedule)
    (h : Perpee.parseCron e = some c) :
    ∀ v ∈ Perpee.todCandidates c, v ≤ 1439 := by
  unfold Perpee.parseCron at h
  split at h
  · rename_i miF hF domF moF dwF
    split at h
    · rename_i mis hs ds mos dws h1 h2 h3 h4 h5
      injection h with h
      subst h
      intro v hv
      unfold Perpee.todCandidates at hv
      rw [List.mem_flatten] at hv
      obtain ⟨l, hl, hvl⟩ := hv
      rw [List.mem_map] at hl
      obtain ⟨hh, hhmem, rfl⟩ := hl
      rw [List.mem_map] at hvl
      obtain ⟨mi, hmimem, rfl⟩ := hvl
      have hhle := parseField_le 0 23 _ hs h2 hh hhmem
      have hmile := parseField_le 0 59 _ mis h1 mi hmimem
      omega
    · exact absurd h (by simp)
  · exact absurd h (by simp)

/-- A successful `parseCron` saw exactly five fields. -/
theorem parseCron_five (e : String) (c : Perpee.CronSchedule)
    (h : Perpee.parseCron e = some c) :
    (Perpee.pySplitWs e.data).length = 5 := by
  unfold Perpee.parseCron at h
  split at h
  · rename_i miF hF domF moF dwF heq
    rw [heq]
    rfl
  · exact absurd h (by simp)

/-- `findDay` never returns early (the elapsed time dominates the
accumulator) and lands on a firing minute-of-day. -/
theorem findDay_bound (c : Perpee.CronSchedule) :
    ∀ (fuel : ℕ) (d : Perpee.CronDate) (acc : ℕ) (n : Perpee.CronDateTime)
      (e : ℕ), Perpee.findDay c fuel d acc = some (n, e) →
      acc ≤ e ∧ n.tod ∈ Perpee.todCandidates c := by
  intro fuel
  induction fuel with
  | zero =>
      intro d acc n e h
      exact absurd h (by simp [Perpee.findDay])
  | succ f ih =>
      intro d acc n e h
      unfold Perpee.findDay at h
      split at h
      · split at h
        · rename_i v heq
          injection h with h
          injection h with hn he
          subst hn
          subst he
          refine ⟨by omega, ?_⟩
          unfold Perpee.firstTodAny at heq
          exact List.min?_mem (fun a b => min_choice a b) heq
        · exact absurd h (by simp)
      · obtain ⟨h1, h2⟩ := ih (Perpee.nextDate d) (acc + 1440) n e h
        exact ⟨by omega, h2⟩

/-- `nextFireE` fires strictly after the base time (elapsed at least one
minute when the base minute-of-day is in range) and lands on a firing
minute-of-day. -/
theorem nextFireE_bound (c : Perpee.CronSchedule) (base : Perpee.CronDateTime)
    (fuel : ℕ) (n : Perpee.CronDateTime) (e : ℕ) (hb : base.tod ≤ 1439)
    (h : Perpee.nextFireE c base fuel = some (n, e)) :
    1 ≤ e ∧ n.tod ∈ Perpee.todCandidates c := by
  unfold Perpee.nextFireE at h
  split at h
  · rename_i v heq
    injection h with h
    injection h with hn he
    subst hn
    subst he
    have hv : Perpee.firstTodAfter c base.tod = some v := by
      cases hd : Perpee.dayMatches c base.date with
      | true =>
          rw [hd] at heq
          simpa using heq
      | false =>
          rw [hd] at heq
          exact absurd heq (by simp)
    unfold Perpee.firstTodAfter at hv
    have hmem := List.min?_mem (fun a b => min_choice a b) hv
    rw [List.mem_filter, decide_eq_true_eq] at hmem
    exact ⟨by omega, hmem.1⟩
  · obtain ⟨h1, h2⟩ := findDay_bound c fuel (Perpee.nextDate base.date)
      (1440 - base.tod) n e h
    exact ⟨by omega, h2⟩

/-- C7: for every submitted five-field cron expression that parses, with
both of the next two firings computable from the base time, schedule
creation (`create_schedule` with the minimum-interval validation)
succeeds if and only if the computed interval between the next firing and
the firing after it is at least 24 hours (1440 minutes); otherwise it
raises and no schedule row is created. -/
theorem c7_create_schedule_min_interval (e : String)
    (base : Perpee.CronDateTime) (pid : Option ℕ) (sd : Option String)
    (c : Perpee.CronSchedule) (n1 n2 : Perpee.CronDateTime) (e1 e2 : ℕ)
    (hids : (Perpee.pyTruthyOptNat pid || Perpee.pyTruthyOptStr sd) = true)
    (hparse : Perpee.parseCron e = some c)
    (h1 : Perpee.nextFireE c base Perpee.CRON_SEARCH_DAYS = some (n1, e1))
    (h2 : Perpee.nextFireE c n1 Perpee.CRON_SEARCH_DAYS = some (n2, e2))
    (hbase : base.tod ≤ 1439) :
    (∃ row, Perpee.create_schedule base e pid sd true = Except.ok row) ↔
      1440 ≤ e2 := by
  have htodle := parseCron_tod_le e c hparse
  have hb1 := nextFireE_bound c base _ n1 e1 hbase h1
  have hb2 := nextFireE_bound c n1 _ n2 e2 (htodle n1.tod hb1.2) h2
  have he2pos : (0 : ℚ) < (e2 : ℚ) / 60 := by
    have : (0 : ℚ) < (e2 : ℚ) := by
      exact_mod_cast Nat.lt_of_lt_of_le Nat.zero_lt_one hb2.1
    positivity
  have hqne : ¬ ((e2 : ℚ) / 60 = 0) := ne_of_gt he2pos
  have hg : (!Perpee.pyTruthyOptNat pid && !Perpee.pyTruthyOptStr sd) = false := by
    cases hpn : Perpee.pyTruthyOptNat pid <;>
      cases hps : Perpee.pyTruthyOptStr sd <;> simp_all
  have hv : Perpee.validate_cron e base =
      { valid := true, next_run := some n1,
        interval_hours := some ((e2 : ℚ) / 60) } := by
    unfold Perpee.validate_cron
    rw [if_neg (by simp [parseCron_five e c hparse])]
    simp only [hparse, h1, h2]
  by_cases hlt : e2 < 1440
  · have hqlt : ((e2 : ℚ) / 60 < (24 : ℚ)) := by
      rw [div_lt_iff₀ (by norm_num)]
      norm_num
      exact_mod_cast hlt
    have hvm : (Perpee.validate_cron_with_minimum e base
        Perpee.MIN_INTERVAL_HOURS).valid = false := by
      unfold Perpee.validate_cron_with_minimum
      rw [hv]
      simp [Perpee.pyTruthyOptQ, hqne, Perpee.MIN_INTERVAL_HOURS, hqlt]
    constructor
    · rintro ⟨row, hrow⟩
      unfold Perpee.create_schedule at hrow
      rw [hg] at hrow
      simp only [Bool.false_eq_true, if_false, if_true] at hrow
      rw [hvm] at hrow
      exact absurd hrow (by simp)
    · intro hge
      omega
  · have hnlt : ¬ ((e2 : ℚ) / 60 < (24 : ℚ)) := by
      apply not_lt.mpr
      rw [le_div_iff₀ (by norm_num)]
      norm_num
      exact_mod_cast (by omega : 1440 ≤ e2)
    have hvm2 : Perpee.validate_cron_with_minimum e base
        Perpee.MIN_INTERVAL_HOURS = Perpee.validate_cron e base := by
      unfold Perpee.validate_cron_with_minimum
      rw [hv]
      simp [Perpee.pyTruthyOptQ, hqne, Perpee.MIN_INTERVAL_HOURS, hnlt]
    constructor
    · intro _
      omega
    · intro _
      refine ⟨⟨pid, sd, e, true, some n1⟩, ?_⟩
      unfold Perpee.create_schedule
      rw [hg]
      simp only [Bool.false_eq_true, if_false, if_true]
      rw [hvm2, hv]
      simp

/-- C7 witness: the daily default schedule `0 6 * * *` from a base of
March 10 2026, 07:00 — the next two firings are 6 AM on the following two
days, 1440 minutes apart, and creation succeeds. -/
theorem c7_witness :
    (Perpee.pyTruthyOptNat (some 1) || Perpee.pyTruthyOptStr none) = true ∧
    Perpee.parseCron ("0 6 * * *") =
      some ⟨[0], [6], List.range' 1 31, List.range' 1 12,
        List.range' 0 7, true, true⟩ ∧
    Perpee.nextFireE
      ⟨[0], [6], List.range' 1 31, List.range' 1 12, List.range' 0 7, true, true⟩
      ⟨⟨2026, 3, 10⟩, 420⟩ Perpee.CRON_SEARCH_DAYS =
      some (⟨⟨2026, 3, 11⟩, 360⟩, 1380) ∧
    Perpee.nextFireE
      ⟨[0], [6], List.range' 1 31, List.range' 1 12, List.range' 0 7, true, true⟩
      ⟨⟨2026, 3, 11⟩, 360⟩ Perpee.CRON_SEARCH_DAYS =
      some (⟨⟨2026, 3, 12⟩, 360⟩, 1440) ∧
    ((∃ row, Perpee.create_schedule ⟨⟨2026, 3, 10⟩, 420⟩ ("0 6 * * *")
        (some 1) none true = Except.ok row) ↔ 1440 ≤ 1440) :=
  ⟨by decide, by decide, by decide, by decide,
    c7_create_schedule_min_interval ("0 6 * * *") ⟨⟨2026, 3, 10⟩, 420⟩
      (some 1) none
      ⟨[0], [6], List.range' 1 31, List.range' 1 12, List.range' 0 7, true, true⟩
      ⟨⟨2026, 3, 11⟩, 360⟩ ⟨⟨2026, 3, 12⟩, 360⟩ 1380 1440
      (by decide) (by decide) (by decide) (by decide) (by decide)⟩
